import Mathlib

/-!
Verification development for the django-like-repositories query-building core.

The definitions below are a shallow embedding of the Python sources under
`src/repositories/` (builder.py, queryset.py, base.py, utils.py, exceptions.py)
over the entity metadata declared in `src/models/` (help.py, users.py).
Statements (SELECT / COUNT / UPDATE / DELETE) are embedded as explicit ASTs
mirroring how the code composes SQLAlchemy's generative API, together with an
executable relational evaluation over in-memory tables.

Python dicts are embedded as association lists (preserving insertion order,
which is what Python dict iteration yields); Python `None` as `Option.none`;
raised exceptions as `Except.error` with an explicit error datatype.
-/

deriving instance DecidableEq for Except

namespace DLR

/-- Entity types declared in src/models/help.py and src/models/users.py. -/
inductive ModelCls where
  | Section
  | Subsection
  | PublicationStatus
  | Widget
  | ArticleContent
  | User
  | UserType
  | UserTypeStatus
  | UserTypeChangeLog
  | Document
  deriving DecidableEq, Repr, Fintype

/-- Scalar column values stored in rows (integers, strings, booleans, SQL NULL). -/
inductive Value where
  | int : Int → Value
  | str : String → Value
  | bool : Bool → Value
  | null
  deriving DecidableEq, Repr

/-- Right-hand side of a filter: a plain value or a sequence (for the `in` lookup). -/
inductive FilterVal where
  | v : Value → FilterVal
  | seq : List Value → FilterVal
  deriving DecidableEq, Repr

/-- Scalar column names of each model, per the `Mapped` column declarations in
src/models (relationship attributes excluded). -/
def columnsOf : ModelCls → List String
  | .Section => ["id", "name", "status_id"]
  | .Subsection => ["id", "name", "section_id", "status_id"]
  | .PublicationStatus => ["id", "code", "name"]
  | .Widget => ["id", "name", "code"]
  | .ArticleContent => ["id", "subtitle", "text", "subsection_id", "widget_id"]
  | .User => ["id", "first_name", "last_name", "type_id", "is_active", "created_by_id"]
  | .UserType => ["id", "code", "description", "status_id"]
  | .UserTypeStatus => ["id", "name"]
  | .UserTypeChangeLog => ["id", "created_at", "user_type_id"]
  | .Document => ["id", "user_id", "name"]

/-- Join metadata of one declared relationship: target model, the column on the
owning side and the column on the target side that the ON-clause equates. -/
structure RelInfo where
  target : ModelCls
  ownCol : String
  targetCol : String
  deriving DecidableEq, Repr

/-- Declared relationships of each model (name, target and ON-columns), per the
`relationship(...)` declarations in src/models. -/
def relationshipsOf : ModelCls → List (String × RelInfo)
  | .Section =>
      [("status", ⟨.PublicationStatus, "status_id", "id"⟩),
       ("subsections", ⟨.Subsection, "id", "section_id"⟩)]
  | .Subsection =>
      [("section", ⟨.Section, "section_id", "id"⟩),
       ("status", ⟨.PublicationStatus, "status_id", "id"⟩),
       ("article_contents", ⟨.ArticleContent, "id", "subsection_id"⟩)]
  | .PublicationStatus =>
      [("sections", ⟨.Section, "id", "status_id"⟩),
       ("subsections", ⟨.Subsection, "id", "status_id"⟩)]
  | .Widget => [("article_contents", ⟨.ArticleContent, "id", "widget_id"⟩)]
  | .ArticleContent =>
      [("subsection", ⟨.Subsection, "subsection_id", "id"⟩),
       ("widget", ⟨.Widget, "widget_id", "id"⟩)]
  | .User =>
      [("type", ⟨.UserType, "type_id", "id"⟩),
       ("documents", ⟨.Document, "id", "user_id"⟩)]
  | .UserType =>
      [("users", ⟨.User, "id", "type_id"⟩),
       ("status", ⟨.UserTypeStatus, "status_id", "id"⟩),
       ("change_logs", ⟨.UserTypeChangeLog, "id", "user_type_id"⟩)]
  | .UserTypeStatus => [("user_types", ⟨.UserType, "id", "status_id"⟩)]
  | .UserTypeChangeLog => [("user_type", ⟨.UserType, "user_type_id", "id"⟩)]
  | .Document => [("user", ⟨.User, "user_id", "id"⟩)]

/-- Names of the declared relationships of a model. -/
def relNamesOf (m : ModelCls) : List String :=
  (relationshipsOf m).map (·.1)

/-- Lookup of a relationship by name (embeds utils.get_relationship /
QuerySet._get_relationship, without the raising flag). -/
def getRelationship (m : ModelCls) (name : String) : Option RelInfo :=
  ((relationshipsOf m).find? (·.1 = name)).map (·.2)

/-- Membership test for a scalar column (embeds utils.get_column succeeding). -/
def hasColumn (m : ModelCls) (name : String) : Bool :=
  (columnsOf m).contains name

/-- Modelled from the spec: `repositories/utils.get_pk` is referenced by
builder.py but absent from src/; per the spec every entity has a single-column
primary key, which for every model in src/models is the `id` column. -/
def get_pk (_ : ModelCls) : String := "id"

/-- Modelled from the spec: `repositories/utils.get_annotations` is referenced by
builder.py but absent from src/; the declared annotations of a model are its
scalar fields together with its relationship names. -/
def declaredNames (m : ModelCls) : List String :=
  columnsOf m ++ relNamesOf m

/-- Comparison operators selected by lookups (the values of the lookup registry). -/
inductive OpName where
  | eq
  | inOp
  | gt
  | gte
  | lt
  | lte
  | containsOp
  | icontains
  | isnull
  | year
  | day
  deriving DecidableEq, Repr

/-- Modelled from the spec: the lookup registry `repositories/lookups.lookups`
is referenced by builder.py and queryset.py but absent from src/.  Per the spec
it is a fixed mapping from lookup names (gt, icontains, in, isnull, year, ...)
to comparison-producing functions, with `exact` as the Django-style default. -/
def lookupRegistry : List (String × OpName) :=
  [("exact", .eq), ("in", .inOp), ("gt", .gt), ("gte", .gte),
   ("lt", .lt), ("lte", .lte), ("contains", .containsOp),
   ("icontains", .icontains), ("isnull", .isnull), ("year", .year), ("day", .day)]

/-- Names registered in the lookup registry. -/
def lookupNames : List String := lookupRegistry.map (·.1)

/-- Lookup registry access (Python `lookups.get(name)` / `lookups[name]`). -/
def lookupGet (name : String) : Option OpName :=
  ((lookupRegistry.find? (·.1 = name))).map (·.2)

/-- Tests whether the first character list starts the second one. -/
def charsStart : List Char → List Char → Bool
  | [], _ => true
  | _ :: _, [] => false
  | a :: as, b :: bs => a = b && charsStart as bs

/-- Tests whether the first character list occurs contiguously in the second. -/
def charsInside (n : List Char) : List Char → Bool
  | [] => n.isEmpty
  | c :: rest => charsStart n (c :: rest) || charsInside n rest

/-- Integer comparison helper for the ordering lookups; non-integers compare false. -/
def valueLt : Value → Value → Bool
  | .int a, .int b => a < b
  | _, _ => false

/-- Evaluation of a lookup's comparison on a column value and a filter value.
Date-extraction lookups (year, day) are not exercised by any claim and evaluate
to false. -/
def applyLookup : OpName → Value → FilterVal → Bool
  | .eq, v, .v w => v = w
  | .eq, _, .seq _ => false
  | .inOp, v, .seq ws => ws.contains v
  | .inOp, _, .v _ => false
  | .gt, v, .v w => valueLt w v
  | .gte, v, .v w => valueLt w v || v = w
  | .lt, v, .v w => valueLt v w
  | .lte, v, .v w => valueLt v w || v = w
  | .containsOp, .str s, .v (.str t) => charsInside t.toList s.toList
  | .icontains, .str s, .v (.str t) =>
      charsInside ((t.toList).map Char.toLower) ((s.toList).map Char.toLower)
  | .isnull, v, .v (.bool b) => (v = Value.null) = b
  | _, _, _ => false

/-- Splitting helper for dotted paths: splits a character list on the two-character
separator, matching Python's `str.split` on the fixed LOOKUP_SEP separator from
repositories/constants (the separator the spec's examples use is the double
underscore). -/
def splitSepAux : List Char → List Char → List (List Char)
  | [], acc => [acc.reverse]
  | '_' :: '_' :: rest, acc => acc.reverse :: splitSepAux rest []
  | c :: rest, acc => splitSepAux rest (c :: acc)

/-- Splits a dotted path string into its segments. -/
def pathSegs (s : String) : List String :=
  (splitSepAux s.toList []).map List.asString

/-- Joins segments back into a dotted path (used for path-keyed join-tree nodes,
mirroring the `attr_root` keys built in QueryBuilder._apply_joins_new). -/
def joinSegs : List String → String
  | [] => ""
  | [s] => s
  | s :: rest => s ++ "__" ++ joinSegs rest

/-- Last segment of a dotted path. -/
def lastSeg (p : String) : String :=
  (pathSegs p).getLast?.getD ""

/-- Dotted path with its last segment removed (the parent node's path; empty for
a node hanging directly off the root). -/
def parentPathOf (p : String) : String :=
  joinSegs (pathSegs p).dropLast

/-!
Statement AST.  `SelectStmt` embeds an SQLAlchemy `Select` as the repository
composes one: a projection, a root entity, a list of joins (each join clause
records the alias it introduces, keyed by its relationship path, plus the
ON-relationship it was created from), WHERE predicates, ORDER BY expressions,
limit/offset, the DISTINCT flag, and loader options.  Aliases are identified by
their relationship path, mirroring the path-keyed `tree` dict that
QueryBuilder._apply_joins_new builds; the empty path denotes the statement's
FROM entity (the root model, or the aliased subquery for the wrapped form).
-/

/-- One JOIN clause of a select: `stmt.join(target, onclause, isouter)` where the
target alias is identified by its relationship path and the onclause is the
relationship named `attr` declared on `parentModel` (reached at `parentPath`). -/
structure JoinClause where
  path : String
  parentPath : String
  parentModel : ModelCls
  attr : String
  target : ModelCls
  isouter : Bool
  deriving DecidableEq, Repr

/-- One WHERE predicate: a lookup comparison against a column of the alias at
`path` (empty path: the FROM entity). -/
structure Pred where
  path : String
  col : String
  op : OpName
  val : FilterVal
  deriving DecidableEq, Repr

/-- Ordering direction. -/
inductive Dir where
  | asc
  | desc
  deriving DecidableEq, Repr

/-- One ORDER BY expression bound to the alias at `path`. -/
structure OrderExpr where
  path : String
  col : String
  dir : Dir
  deriving DecidableEq, Repr

/-- One eager-load option: the chain of contains_eager calls, recorded as the
chain of path prefixes it walks (mirroring QueryBuilder._get_options). -/
structure OptionChain where
  chain : List String
  deriving DecidableEq, Repr

/-- Projection of a select statement. -/
inductive Projection where
  | entity : ModelCls → Projection
  | subAlias : ModelCls → Projection
  | distinctCol : ModelCls → String → Projection
  | countDistinctCol : ModelCls → String → Projection
  | colsList : List (ModelCls × String) → Projection
  deriving DecidableEq, Repr

/-- Embedded SQLAlchemy Select statement. -/
structure SelectStmt where
  proj : Projection
  fromModel : ModelCls
  joins : List JoinClause
  whereCls : List Pred
  orderBy : List OrderExpr
  sLimit : Option Int
  sOffset : Option Int
  sDistinct : Bool
  opts : List OptionChain
  execOpts : List (String × String)
  deriving DecidableEq, Repr

/-- Compiled select statements: either a single statement, or the subquery form
(the subquery wrapped as an aliased virtual root, with the outer statement
selecting from it) produced by QueryBuilder._build_stmt_w_options. -/
inductive Stmt where
  | plain : SelectStmt → Stmt
  | wrapped : SelectStmt → SelectStmt → Stmt
  deriving DecidableEq, Repr

/-- RETURNING item of an UPDATE/DELETE: a column or the full entity. -/
inductive RetCol where
  | col : ModelCls → String → RetCol
  | entity : ModelCls → RetCol
  deriving DecidableEq, Repr

/-- WHERE item of an UPDATE/DELETE statement: a column membership in a select
subquery, or a plain predicate on the target table. -/
inductive DmlWhere where
  | colInSub : String → SelectStmt → DmlWhere
  | plainPred : Pred → DmlWhere
  deriving DecidableEq, Repr

/-- Embedded SQLAlchemy Delete statement. -/
structure DeleteStmt where
  model : ModelCls
  whereCls : List DmlWhere
  returningCols : List RetCol
  deriving DecidableEq, Repr

/-- Embedded SQLAlchemy Update statement. -/
structure UpdateStmt where
  model : ModelCls
  whereCls : List DmlWhere
  values : List (String × Value)
  returningCols : List RetCol
  deriving DecidableEq, Repr

/-!
Relational evaluation.  A database maps each model to its list of rows; a row is
an association list from column names to values.  Join evaluation produces
environments binding each alias path to a row of its target table.
-/

/-- A row of a table. -/
def Row : Type := List (String × Value)

instance : DecidableEq Row := by
  unfold Row
  infer_instance

/-- An in-memory database: the rows of each model's table. -/
def DB : Type := ModelCls → List Row

/-- A join environment: the row currently bound to each alias path (the empty
path is the FROM entity's row). -/
def Env : Type := List (String × Row)

instance : DecidableEq Env := by
  unfold Env
  infer_instance

/-- Value of a column in a row; absent columns read as SQL NULL. -/
def rowLookup (c : String) (r : Row) : Value :=
  ((r.find? (·.1 = c)).map (·.2)).getD .null

/-- Row bound to an alias path in an environment. -/
def envLookup (p : String) (e : Env) : Option Row :=
  (e.find? (·.1 = p)).map (·.2)

/-- Row of the FROM entity in an environment. -/
def envRoot (e : Env) : Row :=
  (envLookup "" e).getD []

/-- SQL equality used in ON-clauses: NULL never compares equal. -/
def joinEq (a b : Value) : Bool :=
  a ≠ .null && b ≠ .null && a = b

/-- Environments produced by one JOIN clause from one environment: the target
rows matching the relationship's ON-condition, or a NULL-extended environment
for an outer join without matches. -/
def joinMatches (j : JoinClause) (db : DB) (e : Env) : List Env :=
  match envLookup j.parentPath e with
  | none => []
  | some prow =>
    match getRelationship j.parentModel j.attr with
    | none => []
    | some rel =>
      match (db j.target).filter
          (fun t => joinEq (rowLookup rel.ownCol prow) (rowLookup rel.targetCol t)) with
      | [] => if j.isouter then [(j.path, ([] : Row)) :: e] else []
      | m :: ms => (m :: ms).map (fun t => (j.path, t) :: e)

/-- Environments produced by a list of JOIN clauses applied left to right. -/
def evalJoins (js : List JoinClause) (db : DB) (e : Env) : List Env :=
  match js with
  | [] => [e]
  | j :: rest => (joinMatches j db e).flatMap (fun e2 => evalJoins rest db e2)

/-- Truth of one WHERE predicate in an environment. -/
def evalPred (p : Pred) (e : Env) : Bool :=
  match envLookup p.path e with
  | some r => applyLookup p.op (rowLookup p.col r) p.val
  | none => false

/-- Truth of a conjunction of WHERE predicates. -/
def predsHold (ps : List Pred) (e : Env) : Bool :=
  ps.all (fun p => evalPred p e)

/-- The matching environments of a select statement started from the given FROM
rows: joins applied, then the WHERE conjunction. -/
def matchEnvs (s : SelectStmt) (db : DB) (rows0 : List Row) : List Env :=
  (rows0.flatMap (fun r => evalJoins s.joins db [("", r)])).filter
    (predsHold s.whereCls)

/-- List drop for an optional SQL OFFSET. -/
def applyOffsetRows (o : Option Int) (l : List Row) : List Row :=
  match o with
  | none => l
  | some n => l.drop n.toNat

/-- List take for an optional SQL LIMIT. -/
def applyLimitRows (o : Option Int) (l : List Row) : List Row :=
  match o with
  | none => l
  | some n => l.take n.toNat

/-- Rows (of the FROM entity) returned by a select statement whose projection is
the root entity, evaluated from the given FROM rows: matching environments
projected to the root row, deduplicated when DISTINCT, then offset and limit.
Ordering is not modelled (no claim concerns the produced row order). -/
def evalSelectRows (s : SelectStmt) (db : DB) (rows0 : List Row) : List Row :=
  let rs := (matchEnvs s db rows0).map envRoot
  let rs := if s.sDistinct then rs.dedup else rs
  applyLimitRows s.sLimit (applyOffsetRows s.sOffset rs)

/-- Column values returned by a select statement whose projection is
`func.distinct(column)` of the root entity (the candidate primary-key subquery
shape): the distinct values of that column over the matching environments. -/
def evalDistinctColVals (s : SelectStmt) (db : DB) : List Value :=
  match s.proj with
  | .distinctCol _ c =>
      ((matchEnvs s db (db s.fromModel)).map (fun e => rowLookup c (envRoot e))).dedup
  | _ => []

/-- Scalar returned by a select statement whose projection is
`func.count(func.distinct(column))`: the number of distinct values of that
column over the matching environments. -/
def evalCountVal (s : SelectStmt) (db : DB) : Nat :=
  match s.proj with
  | .countDistinctCol _ c =>
      (((matchEnvs s db (db s.fromModel)).map
        (fun e => rowLookup c (envRoot e))).dedup).length
  | _ => 0

/-- Truth of one UPDATE/DELETE WHERE item on a row of the target table. -/
def evalDmlWhere (w : DmlWhere) (db : DB) (r : Row) : Bool :=
  match w with
  | .colInSub c sub => (evalDistinctColVals sub db).contains (rowLookup c r)
  | .plainPred p => evalPred p [("", r)]

/-- Truth of the WHERE conjunction of an UPDATE/DELETE on a row. -/
def dmlWheresHold (ws : List DmlWhere) (db : DB) (r : Row) : Bool :=
  ws.all (fun w => evalDmlWhere w db r)

/-- Table contents after executing a DELETE: the rows whose WHERE conjunction
fails are kept. -/
def evalDeleteStmt (d : DeleteStmt) (db : DB) : List Row :=
  (db d.model).filter (fun r => !(dmlWheresHold d.whereCls db r))

/-- Row after applying an UPDATE's value assignments. -/
def applyValues (vals : List (String × Value)) (r : Row) : Row :=
  vals.foldl (fun acc kv => (acc.filter (·.1 ≠ kv.1)) ++ [kv]) r

/-- Table contents after executing an UPDATE: each row matching the WHERE
conjunction has the value assignments applied to it exactly once. -/
def evalUpdateStmt (u : UpdateStmt) (db : DB) : List Row :=
  (db u.model).map
    (fun r => if dmlWheresHold u.whereCls db r then applyValues u.values r else r)

/-!
Errors.  Python exceptions raised by the repository code are embedded as an
explicit error datatype carried in `Except`.
-/

/-- Exceptions the embedded code can raise: Python built-ins (TypeError from a
call with missing positional arguments, ValueError, AttributeError, KeyError)
and the repository's own exception classes from builder.py, exceptions.py. -/
inductive PyErr where
  | typeError
  | valueError
  | attributeError
  | keyError : String → PyErr
  | columnNotFound : ModelCls → String → PyErr
  | relationshipNotFound : ModelCls → String → PyErr
  | invalidFilteringField : String → PyErr
  | invalidOrderingField : String → PyErr
  | invalidOptionField : String → PyErr
  | invalidJoinField : String → PyErr
  | objectNotFound
  | multipleObjectsReturned
  deriving DecidableEq, Repr

/-- Association-list update with Python dict semantics: an existing key keeps
its position and gets the new value, a new key is appended. -/
def dictSet {α : Type} (l : List (String × α)) (k : String) (v : α) : List (String × α) :=
  if l.any (·.1 = k) then l.map (fun p => if p.1 = k then (k, v) else p)
  else l ++ [(k, v)]

/-!
QueryBuilder (src/repositories/builder.py).

The builder keeps two generations of internal state shapes side by side in the
source.  The select-compilation path (`_build_stmt_w_options` /
`_build_stmt_wo_options` via `_apply_joins_new`) consumes join-tree nodes of
the form `{"model_cls": ..., "where": ..., "order_by": ..., "is_outer": ...,
"children": ...}` — the shape `__init__` creates — while the count/update/delete
path (via `_apply_joins`) consumes nodes of the form `{"target": ...,
"onclause": ..., "isouter": ..., "children": ...}` — the shape the `_join`
helper creates.  Both tree shapes are embedded as path-keyed flat lists in the
pre-order their recursive traversals visit (the same keying as the path-keyed
`tree` dict `_apply_joins_new` itself builds, e.g. "subsections",
"subsections__status"), and `_where` / `_order_by` in the dict form
`{attr: {"op": ..., "value": ...}}` / `{attr: {"direction": ...}}` that
`_apply_where` / `_apply_order_by` consume.
-/

/-- Join-tree node payload in the shape `_apply_joins_new` consumes
(builder.py `__init__` / the docstring of `_apply_joins_new`). -/
structure JoinNodeData where
  model_cls : ModelCls
  nodeWhere : List (String × OpName × FilterVal)
  nodeOrder : List (String × Dir)
  is_outer : Bool
  deriving DecidableEq, Repr

/-- Join-tree node payload in the shape `_apply_joins` consumes (nodes created
by `QueryBuilder._join`: a fresh alias of the relationship's target class and
the relationship as onclause, here recorded via parentModel + the path's last
segment). -/
structure OldJoinNodeData where
  target : ModelCls
  parentModel : ModelCls
  isouter : Bool
  deriving DecidableEq, Repr

/-- A stored node of the builder's `_joins` tree.  `__init__` writes
model_cls-shaped payloads (keys "model_cls"/"where"/"order_by"/"is_outer")
while `_join` writes target/onclause-shaped ones (keys "target"/"onclause");
each consumer requires one of the two shapes and raises KeyError for the
missing key on the other. -/
inductive JoinNode where
  | modelShaped : JoinNodeData → JoinNode
  | joinShaped : OldJoinNodeData → JoinNode
  deriving DecidableEq, Repr

/-- QueryBuilder state consumed by the select-statement compilation path. -/
structure NewBuilderState where
  model_cls : ModelCls
  whereDict : List (String × OpName × FilterVal)
  joins : List (String × JoinNodeData)
  optionsList : List String
  orderDict : List (String × Dir)
  nLimit : Option Int
  nOffset : Option Int
  returningCols : List RetCol
  execution_options : List (String × String)
  values_list : List (ModelCls × String)
  deriving DecidableEq, Repr

/-- QueryBuilder state consumed by the count/update/delete compilation path
and by filter's `_join` step.  The `_joins` tree is embedded as a flat list
keyed by segment paths in pre-order, with each node carrying whichever of the
two payload shapes the code stored there. -/
structure QueryBuilderState where
  model_cls : ModelCls
  whereDict : List (String × OpName × FilterVal)
  joins : List (List String × JoinNode)
  returningCols : List RetCol
  execution_options : List (String × String)
  deriving DecidableEq, Repr

/-- Python truthiness of the optional integer fields `_limit` / `_offset`
(None and 0 are falsy). -/
def intTruthy : Option Int → Bool
  | none => false
  | some n => n ≠ 0

/-- The state `QueryBuilder.__init__` creates: the source hard-codes sample
filters, a sample join tree over Subsection/PublicationStatus, sample option
paths and a sample ordering, regardless of the model class passed in. -/
def queryBuilderInit (m : ModelCls) : NewBuilderState :=
  { model_cls := m
    whereDict := [("name", .eq, .v (.str "значение"))]
    joins :=
      [("subsections",
        { model_cls := .Subsection
          nodeWhere := [("name", .eq, .v (.str "значение"))]
          nodeOrder := [("status_id", .asc), ("name", .desc)]
          is_outer := false }),
       ("subsections__status",
        { model_cls := .PublicationStatus
          nodeWhere := [("code", .eq, .v (.str "published"))]
          nodeOrder := []
          is_outer := false }),
       ("status",
        { model_cls := .PublicationStatus
          nodeWhere := []
          nodeOrder := []
          is_outer := false })]
    optionsList := ["subsections__status", "status"]
    orderDict := [("status_id", .asc), ("name", .desc)]
    nLimit := none
    nOffset := none
    returningCols := []
    execution_options := []
    values_list := [] }

/-- QueryBuilder.limit: validates eagerly (limit below 1 raises ValueError) and
records the value. -/
def queryBuilderLimit (st : NewBuilderState) (n : Int) : Except PyErr NewBuilderState :=
  if n < 1 then .error .valueError else .ok { st with nLimit := some n }

/-- QueryBuilder.offset: validates eagerly (negative offset raises ValueError)
and records the value. -/
def queryBuilderOffset (st : NewBuilderState) (n : Int) : Except PyErr NewBuilderState :=
  if n < 0 then .error .valueError else .ok { st with nOffset := some n }

/-- Model class sitting at a path of the new-shape join tree (the root model
for the empty path). -/
def treeModelAt (root : ModelCls) (tree : List (String × JoinNodeData)) (p : String) : ModelCls :=
  if p = "" then root
  else match tree.find? (·.1 = p) with
    | some e => e.2.model_cls
    | none => root

/-- JOIN clauses emitted by `_apply_joins_new` for a new-shape join tree: one
per node, in tree order, each joining a fresh alias of the node's model class
onto its parent via the relationship named by the path's last segment. -/
def compileJoinsNew (root : ModelCls) (tree : List (String × JoinNodeData)) : List JoinClause :=
  tree.map (fun e =>
    { path := e.1
      parentPath := parentPathOf e.1
      parentModel := treeModelAt root tree (parentPathOf e.1)
      attr := lastSeg e.1
      target := e.2.model_cls
      isouter := e.2.is_outer })

/-- WHERE predicates accumulated from the per-node `where` dicts during the
`_apply_joins_new` traversal, bound to each node's alias. -/
def joinWheres (tree : List (String × JoinNodeData)) : List Pred :=
  tree.flatMap (fun e =>
    e.2.nodeWhere.map (fun w => { path := e.1, col := w.1, op := w.2.1, val := w.2.2 }))

/-- ORDER BY expressions accumulated from the per-node `order_by` dicts during
the `_apply_joins_new` traversal. -/
def joinOrders (tree : List (String × JoinNodeData)) : List OrderExpr :=
  tree.flatMap (fun e =>
    e.2.nodeOrder.map (fun w => { path := e.1, col := w.1, dir := w.2 }))

/-- Root-level WHERE predicates compiled by `_apply_where` from the dict-form
`_where`: `getattr(model_cls, attr)` requires the attribute to be declared on
the root model (otherwise Python raises AttributeError). -/
def rootWheres (m : ModelCls) : List (String × OpName × FilterVal) → Except PyErr (List Pred)
  | [] => .ok []
  | w :: rest =>
    if (declaredNames m).contains w.1 then do
      let ps ← rootWheres m rest
      .ok ({ path := "", col := w.1, op := w.2.1, val := w.2.2 } :: ps)
    else .error .attributeError

/-- Root-level ORDER BY expressions compiled by `_apply_order_by` from the
dict-form `_order_by` (same getattr requirement as `_apply_where`). -/
def rootOrders (m : ModelCls) : List (String × Dir) → Except PyErr (List OrderExpr)
  | [] => .ok []
  | w :: rest =>
    if (declaredNames m).contains w.1 then do
      let os ← rootOrders m rest
      .ok ({ path := "", col := w.1, dir := w.2 } :: os)
    else .error .attributeError

/-- Path prefixes of an option field, in order (`_get_options` builds
`['__'.join(parts[:i]) for i in 1..len(parts)]`). -/
def ancestorChain (s : String) : List String :=
  (List.range (pathSegs s).length).map (fun i => joinSegs ((pathSegs s).take (i + 1)))

/-- Eager-load options compiled by `_get_options`: for each option field, a
contains_eager chain over its path prefixes, each looked up in the path-keyed
tree built during the join traversal (a missing prefix raises KeyError). -/
def getOptionsCompiled (treePaths : List String) : List String → Except PyErr (List OptionChain)
  | [] => .ok []
  | f :: rest =>
    match (ancestorChain f).find? (fun p => !(treePaths.contains p)) with
    | some missing => .error (.keyError missing)
    | none => do
        let os ← getOptionsCompiled treePaths rest
        .ok ({ chain := ancestorChain f } :: os)

/-- The `_apply_joins_new` step: appends the tree's JOIN clauses to a statement
and, per its flags, the per-node WHERE predicates, the per-node ORDER BY
expressions, and the compiled eager-load options. -/
def applyJoinsNew (st : NewBuilderState) (base : SelectStmt)
    (applyW applyO applyOpt : Bool) : Except PyErr SelectStmt := do
  let opts ← if applyOpt then getOptionsCompiled (st.joins.map (·.1)) st.optionsList else .ok []
  .ok { base with
        joins := base.joins ++ compileJoinsNew st.model_cls st.joins
        whereCls := base.whereCls ++ (if applyW then joinWheres st.joins else [])
        orderBy := base.orderBy ++ (if applyO then joinOrders st.joins else [])
        opts := base.opts ++ opts }

/-- An empty select of the given projection and FROM entity. -/
def selectOf (p : Projection) (m : ModelCls) : SelectStmt :=
  { proj := p, fromModel := m, joins := [], whereCls := [], orderBy := []
    sLimit := none, sOffset := none, sDistinct := false, opts := [], execOpts := [] }

/-- QueryBuilder._build_stmt_w_options: when `_limit or _offset` is truthy,
compiles a DISTINCT subquery over the root entity (limit, offset, root filters
and the join tree with its per-node filters applied; per-node ordering and
eager options omitted), wraps it as an aliased virtual root, and joins the
join tree onto that alias with per-node filters, per-node ordering and the
eager-load options; otherwise compiles a single statement with joins, root
filters and root ordering. -/
def buildStmtWOptions (st : NewBuilderState) : Except PyErr Stmt :=
  if intTruthy st.nLimit || intTruthy st.nOffset then do
    let sub := { selectOf (.entity st.model_cls) st.model_cls with
                 sDistinct := true, sLimit := st.nLimit, sOffset := st.nOffset }
    let rws ← rootWheres st.model_cls st.whereDict
    let sub ← applyJoinsNew st { sub with whereCls := rws } true false false
    let outer ← applyJoinsNew st (selectOf (.subAlias st.model_cls) st.model_cls) true true true
    .ok (.wrapped sub outer)
  else do
    let base ← applyJoinsNew st (selectOf (.entity st.model_cls) st.model_cls) true true true
    let rws ← rootWheres st.model_cls st.whereDict
    let ros ← rootOrders st.model_cls st.orderDict
    .ok (.plain { base with whereCls := base.whereCls ++ rws, orderBy := base.orderBy ++ ros })

/-- QueryBuilder._build_stmt_wo_options: a single statement selecting the
values_list columns or the root entity, with joins, root filters and root
ordering applied (limit and offset are not applied on this path). -/
def buildStmtWoOptions (st : NewBuilderState) : Except PyErr Stmt := do
  let p := if st.values_list.isEmpty then Projection.entity st.model_cls
           else Projection.colsList st.values_list
  let base := { selectOf p st.model_cls with execOpts := st.execution_options }
  let base ← applyJoinsNew st base true true true
  let rws ← rootWheres st.model_cls st.whereDict
  let ros ← rootOrders st.model_cls st.orderDict
  .ok (.plain { base with whereCls := base.whereCls ++ rws, orderBy := base.orderBy ++ ros })

/-- QueryBuilder.build_select_stmt: dispatches on whether eager-load option
paths are present. -/
def buildSelectStmt (st : NewBuilderState) : Except PyErr Stmt :=
  if st.optionsList.isEmpty then buildStmtWoOptions st else buildStmtWOptions st

/-- JOIN clauses emitted by `_apply_joins` for the builder's join tree, visited
in pre-order: the loop body reads `value["target"]` and `value["onclause"]` of
every node, so a model_cls-shaped node (the shape `__init__` installs) raises
KeyError('target') instead of contributing a clause. -/
def compileOldJoins (_root : ModelCls) :
    List (List String × JoinNode) → Except PyErr (List JoinClause)
  | [] => .ok []
  | (_, .modelShaped _) :: _ => .error (.keyError "target")
  | (p, .joinShaped d) :: rest => do
      let js ← compileOldJoins _root rest
      .ok ({ path := joinSegs p
             parentPath := joinSegs p.dropLast
             parentModel := d.parentModel
             attr := (p.getLast?).getD ""
             target := d.target
             isouter := d.isouter } :: js)

/-- QueryBuilder.build_count_stmt: `select(func.count(func.distinct(pk)))` from
the root model, with the accumulated joins applied first and the accumulated
filters after. -/
def buildCountStmt (st : QueryBuilderState) : Except PyErr SelectStmt := do
  let js ← compileOldJoins st.model_cls st.joins
  let ws ← rootWheres st.model_cls st.whereDict
  .ok { selectOf (.countDistinctCol st.model_cls (get_pk st.model_cls)) st.model_cls with
        joins := js
        whereCls := ws }

/-- The candidate primary-key subquery shared by build_delete_stmt and
build_update_stmt: `select(func.distinct(pk))` with execution options, the
accumulated joins, and then the accumulated filters applied. -/
def buildPkSubquery (st : QueryBuilderState) : Except PyErr SelectStmt := do
  let js ← compileOldJoins st.model_cls st.joins
  let ws ← rootWheres st.model_cls st.whereDict
  .ok { selectOf (.distinctCol st.model_cls (get_pk st.model_cls)) st.model_cls with
        joins := js
        whereCls := ws
        execOpts := st.execution_options }

/-- QueryBuilder.build_delete_stmt: DELETE on the unjoined root table where the
primary key is in the candidate primary-key subquery, with the configured
returning columns attached when present. -/
def buildDeleteStmt (st : QueryBuilderState) : Except PyErr DeleteStmt := do
  let sub ← buildPkSubquery st
  .ok { model := st.model_cls
        whereCls := [.colInSub (get_pk st.model_cls) sub]
        returningCols := st.returningCols }

/-- QueryBuilder.build_update_stmt: UPDATE on the unjoined root table where the
primary key is in the candidate primary-key subquery, with the given values and
the configured returning columns attached when present. -/
def buildUpdateStmt (st : QueryBuilderState) (vals : List (String × Value)) :
    Except PyErr UpdateStmt := do
  let sub ← buildPkSubquery st
  .ok { model := st.model_cls
        whereCls := [.colInSub (get_pk st.model_cls) sub]
        values := vals
        returningCols := st.returningCols }

/-!
Path resolution for filters.

builder.py's QueryBuilder.filter walks the segments with an `expected` set that
starts at the model's annotations, becomes the lookup registry after a column
segment, and becomes empty after a lookup segment; any segment outside
`expected` (or a walk ending without a column) raises
InvalidFilteringFieldError.

queryset.py's QuerySet.filter first decides a trailing lookup by lookahead (the
last segment is popped as the lookup when it equals the one before it, or when
it is a registered lookup name; otherwise the lookup defaults to `exact`), then
walks the remaining segments: a relationship segment in final position raises
ColumnNotFoundError, a segment that is neither a relationship nor a column of
the current model raises ColumnNotFoundError, and a second column segment
raises ValueError (ambiguous multi-column filter).
-/

/-- The `expected` set of QueryBuilder.filter's segment walk. -/
inductive BExpected where
  | annGroup : ModelCls → BExpected
  | lookGroup
  | doneGroup
  deriving DecidableEq, Repr

/-- Membership in the `expected` set. -/
def expectedContains : BExpected → String → Bool
  | .annGroup m, a => (declaredNames m).contains a
  | .lookGroup, a => lookupNames.contains a
  | .doneGroup, _ => false

/-- Segment walk of QueryBuilder.filter for one filter field, threading the
builder's `_joins` tree and the relationship path walked so far: a
relationship segment calls `_join`, which either descends into an existing
node — reading its "target" key, a KeyError on the model_cls-shaped sample
nodes — or records a fresh alias of the relationship's target class.  The
nodes `_join` creates are not threaded back into the tree because one field's
walk never revisits a path it already extended. -/
def builderFilterLoop (ff : String) (joins : List (List String × JoinNode)) :
    ModelCls → List String → Option (ModelCls × String) → OpName → BExpected →
    List String → Except PyErr ((ModelCls × String) × OpName)
  | _, _, col, op, _, [] =>
      match col with
      | none => .error (.invalidFilteringField ff)
      | some c => .ok (c, op)
  | m, cur, col, op, exp, a :: rest =>
      if !(expectedContains exp a) then .error (.invalidFilteringField ff)
      else match getRelationship m a with
        | some rel =>
            match joins.find? (·.1 = cur ++ [a]) with
            | some (_, .modelShaped _) => .error (.keyError "target")
            | some (_, .joinShaped d) =>
                builderFilterLoop ff joins d.target (cur ++ [a]) col op (.annGroup d.target) rest
            | none =>
                builderFilterLoop ff joins rel.target (cur ++ [a]) col op
                  (.annGroup rel.target) rest
        | none =>
          if (columnsOf m).contains a then
            builderFilterLoop ff joins m cur (some (m, a)) op .lookGroup rest
          else match lookupGet a with
            | some opn => builderFilterLoop ff joins m cur col opn .doneGroup rest
            | none => .error (.invalidFilteringField ff)

/-- QueryBuilder.filter's resolution of one filter field against a given
`_joins` tree: returns the bound column and comparison, or the raised error. -/
def builderFilterResolve (m : ModelCls) (joins : List (List String × JoinNode))
    (ff : String) : Except PyErr ((ModelCls × String) × OpName) :=
  builderFilterLoop ff joins m [] none .eq (.annGroup m) (pathSegs ff)

/-- The filter walk specialised to the case where no path prefix hits an
existing join node, so every `_join` call takes the create branch; the walk
then never consults the tree. -/
def builderFilterFreshLoop (ff : String) :
    ModelCls → Option (ModelCls × String) → OpName → BExpected → List String →
    Except PyErr ((ModelCls × String) × OpName)
  | _, col, op, _, [] =>
      match col with
      | none => .error (.invalidFilteringField ff)
      | some c => .ok (c, op)
  | m, col, op, exp, a :: rest =>
      if !(expectedContains exp a) then .error (.invalidFilteringField ff)
      else match getRelationship m a with
        | some rel => builderFilterFreshLoop ff rel.target col op (.annGroup rel.target) rest
        | none =>
          if (columnsOf m).contains a then
            builderFilterFreshLoop ff m (some (m, a)) op .lookGroup rest
          else match lookupGet a with
            | some opn => builderFilterFreshLoop ff m col opn .doneGroup rest
            | none => .error (.invalidFilteringField ff)

/-- Collision-free resolution of one filter field (the walk of
`builderFilterFreshLoop` from the root model). -/
def builderFilterResolveFresh (m : ModelCls) (ff : String) :
    Except PyErr ((ModelCls × String) × OpName) :=
  builderFilterFreshLoop ff m none .eq (.annGroup m) (pathSegs ff)

/-- Sample join-tree nodes `__init__` hard-codes, as the `_apply_joins` /
`_join` consumers see them: path-keyed pre-order, every node model_cls-shaped
(none carries a "target" key). -/
def initDmlJoins : List (List String × JoinNode) :=
  [(["subsections"], .modelShaped
      { model_cls := .Subsection
        nodeWhere := [("name", .eq, .v (.str "значение"))]
        nodeOrder := [("status_id", .asc), ("name", .desc)]
        is_outer := false }),
   (["subsections", "status"], .modelShaped
      { model_cls := .PublicationStatus
        nodeWhere := [("code", .eq, .v (.str "published"))]
        nodeOrder := []
        is_outer := false }),
   (["status"], .modelShaped
      { model_cls := .PublicationStatus
        nodeWhere := []
        nodeOrder := []
        is_outer := false })]

/-- The count/update/delete-relevant fields of the state `QueryBuilder.__init__`
creates: the sample filter and the sample join tree, which consists of
model_cls-shaped nodes only (the shape `_join` never creates). -/
def queryBuilderInitDml (m : ModelCls) : QueryBuilderState :=
  { model_cls := m
    whereDict := [("name", .eq, .v (.str "значение"))]
    joins := initDmlJoins
    returningCols := []
    execution_options := [] }

/-- Join-tree contents reachable through the builder's public API: `__init__`
installs the model_cls-shaped sample nodes, and every later mutation — node
creation by `_join` (from `filter`/`order_by`/`options`/`outerjoin`), the
`isouter` write of `outerjoin`, and `clone`'s shallow copy — only inserts
target/onclause-shaped nodes or rewrites the payload of one, never removing
or reshaping an existing node. -/
inductive ReachableJoins : List (List String × JoinNode) → Prop where
  | init : ReachableJoins initDmlJoins
  | addJoin (js1 js2 : List (List String × JoinNode)) (p : List String)
      (d : OldJoinNodeData) :
      ReachableJoins (js1 ++ js2) → ReachableJoins (js1 ++ (p, .joinShaped d) :: js2)
  | setNode (js1 js2 : List (List String × JoinNode)) (p : List String)
      (d d2 : OldJoinNodeData) :
      ReachableJoins (js1 ++ (p, .joinShaped d) :: js2) →
      ReachableJoins (js1 ++ (p, .joinShaped d2) :: js2)

/-- True when QueryBuilder.filter's first path segment is declared on the root
model and is a relationship whose name collides with a root-level sample join
key ("subsections"/"status") — the case where `_join` descends into a sample
node and reads its missing "target" key. -/
def initCollides (m : ModelCls) (name : String) : Bool :=
  match pathSegs name with
  | [] => false
  | a :: _ =>
      (declaredNames m).contains a && (getRelationship m a).isSome &&
        (a == "subsections" || a == "status")

/-- Resolution result of QuerySet.filter for one filter name: the model owning
the filtered column, the column, the relationship path at which the column was
found, and the full relationship path walked. -/
structure QsResolved where
  finalModel : ModelCls
  col : String
  colPath : List String
  walked : List String
  deriving DecidableEq, Repr

/-- Segment walk of QuerySet.filter (after the trailing lookup was decided):
state is the current model, the relationship names walked so far, and the
column found so far with the path it was found at. -/
def qsFilterLoop :
    ModelCls → List String → Option (String × List String) → List String →
    Except PyErr QsResolved
  | m, walked, found, [] =>
      match found with
      | some (c, w) =>
          if hasColumn m c then .ok { finalModel := m, col := c, colPath := w, walked := walked }
          else .error (.columnNotFound m c)
      | none => .error .valueError
  | m, walked, found, a :: rest =>
      match getRelationship m a with
      | some rel =>
          if rest.isEmpty then .error (.columnNotFound m a)
          else qsFilterLoop rel.target (walked ++ [a]) found rest
      | none =>
          if !(hasColumn m a) then .error (.columnNotFound m a)
          else match found with
            | some _ => .error .valueError
            | none => qsFilterLoop m walked (some (a, walked)) rest

/-- QuerySet.filter's resolution of one filter name: without the separator the
name itself is looked up as a column of the root model; with the separator the
trailing lookup is decided by lookahead and the remaining segments are walked. -/
def qsFilterResolve (m : ModelCls) (filterName : String) :
    Except PyErr (QsResolved × OpName) :=
  let attrs := pathSegs filterName
  if attrs.length ≤ 1 then
    if hasColumn m filterName then
      .ok ({ finalModel := m, col := filterName, colPath := [], walked := [] }, .eq)
    else .error (.columnNotFound m filterName)
  else
    let lastA := (attrs.getLast?).getD ""
    let prevA := (attrs[attrs.length - 2]?).getD ""
    let lookupName := if lastA = prevA then lastA
      else if lookupNames.contains lastA then lastA else "exact"
    let rest := if lastA = prevA || lookupNames.contains lastA then attrs.dropLast else attrs
    match lookupGet lookupName with
    | none => .error .valueError
    | some opn => do
        let r ← qsFilterLoop m [] none rest
        .ok (r, opn)

/-!
QuerySet (src/repositories/queryset.py).

State fields mirror `QuerySet.__init__`; the string-keyed join tree built by
`filter` / `_join` is embedded as a path-keyed flat list (path, isouter), and
`_where` as the insertion-ordered dict from filter names to compiled
predicates.
-/

/-- QuerySet state (value form; the reference/heap form used to observe clone
aliasing is defined separately below). -/
structure QuerySetState where
  model : ModelCls
  qsWhere : List (String × Pred)
  qsJoins : List (String × Bool)
  qsOptions : List (List String)
  ordering : List OrderExpr
  qLimit : Option Int
  qOffset : Option Int
  returningCols : Option (List RetCol)
  deriving DecidableEq, Repr

/-- The state `QuerySet.__init__` creates: everything empty / None. -/
def querySetInit (m : ModelCls) : QuerySetState :=
  { model := m, qsWhere := [], qsJoins := [], qsOptions := [], ordering := []
    qLimit := none, qOffset := none, returningCols := none }

/-- Target model reached by walking a relationship path from a root model. -/
def pathTargetModel (root : ModelCls) (p : String) : ModelCls :=
  (pathSegs p).foldl
    (fun m a => match getRelationship m a with
      | some r => r.target
      | none => m) root

/-- JOIN clauses emitted by QuerySet._apply_joins for the string-keyed join
tree: one inner/outer join per node on the parent's relationship attribute
(QuerySet joins have no aliases). -/
def compileQsJoins (root : ModelCls) (tree : List (String × Bool)) : List JoinClause :=
  tree.map (fun e =>
    { path := e.1
      parentPath := parentPathOf e.1
      parentModel := pathTargetModel root (parentPathOf e.1)
      attr := lastSeg e.1
      target := pathTargetModel root e.1
      isouter := e.2 })

/-- Join-tree paths created by one filter walk: every prefix of the walked
relationship path is ensured to exist (the `setdefault` chain), with the inner
default for the outer flag. -/
def addJoinPaths (js : List (String × Bool)) (walked : List String) : List (String × Bool) :=
  (List.range walked.length).foldl
    (fun acc i =>
      let p := joinSegs (walked.take (i + 1))
      if acc.any (·.1 = p) then acc else acc ++ [(p, false)]) js

/-- QuerySet.filter for a single keyword argument: resolves the name, records
the compiled predicate under the original filter name, and extends the join
tree with the walked relationship path. -/
def querySetFilterOne (q : QuerySetState) (name : String) (v : FilterVal) :
    Except PyErr QuerySetState := do
  let (r, opn) ← qsFilterResolve q.model name
  let pred : Pred := { path := joinSegs r.colPath, col := r.col, op := opn, val := v }
  .ok { q with qsWhere := dictSet q.qsWhere name pred
               qsJoins := addJoinPaths q.qsJoins r.walked }

/-- QuerySet.limit: records the value on a clone; the source performs no
validation on this path. -/
def querySetLimit (q : QuerySetState) (n : Int) : Except PyErr QuerySetState :=
  .ok { q with qLimit := some n }

/-- QuerySet.offset: records the value on a clone; the source performs no
validation on this path. -/
def querySetOffset (q : QuerySetState) (n : Int) : Except PyErr QuerySetState :=
  .ok { q with qOffset := some n }

/-- The `query` property of QuerySet: composes the select with joins, options,
filters and ordering; when `_limit or _offset` is truthy it then calls
`self._apply_joins(subquery, self._joins)` — a call missing the required
`joins` argument of `_apply_joins(self, stmt, model, joins)` — so that branch
raises TypeError before any statement is produced. -/
def querySetQuery (q : QuerySetState) : Except PyErr Stmt :=
  let s : SelectStmt :=
    { proj := .entity q.model
      fromModel := q.model
      joins := compileQsJoins q.model q.qsJoins
      whereCls := q.qsWhere.map (·.2)
      orderBy := q.ordering
      sLimit := none, sOffset := none, sDistinct := false
      opts := q.qsOptions.map (fun c => { chain := c })
      execOpts := [] }
  if intTruthy q.qLimit || intTruthy q.qOffset then .error .typeError
  else .ok (.plain s)

/-- QuerySet.all: executes the `query` statement and returns its rows. -/
def querySetAll (q : QuerySetState) (db : DB) : Except PyErr (List Row) := do
  let st ← querySetQuery q
  match st with
  | .plain s => .ok (evalSelectRows s db (db q.model))
  | .wrapped _ _ => .ok []

/-- QuerySet.first: clones, sets `_limit = 1`, and fetches one scalar — which
makes the `query` property take its truthy-pagination branch and raise
TypeError from the malformed `_apply_joins` call. -/
def querySetFirst (q : QuerySetState) (db : DB) : Except PyErr (Option Row) := do
  let st ← querySetQuery { q with qLimit := some 1 }
  match st with
  | .plain s => .ok (evalSelectRows s db (db q.model)).head?
  | .wrapped _ _ => .ok none

/-- QuerySet._get_count_stmt: builds `select(func.count(func.distinct(pk)))`
and then calls `self._apply_joins(stmt, self._joins)` — again missing the
required `joins` argument — so it always raises TypeError. -/
def querySetGetCountStmt (_ : QuerySetState) : Except PyErr SelectStmt :=
  .error .typeError

/-- QuerySet.count: executes the count statement built by _get_count_stmt. -/
def querySetCount (q : QuerySetState) (db : DB) : Except PyErr Nat := do
  let s ← querySetGetCountStmt q
  .ok (evalCountVal s db)

/-- QuerySet.get_one_or_none: issues a count query; more than one match raises
ValueError (the source's placeholder for MultipleObjectsReturned); otherwise
the first row (or None) is fetched with a second, limit-1 query. -/
def querySetGetOneOrNone (q : QuerySetState) (db : DB) : Except PyErr (Option Row) := do
  let c ← querySetCount q db
  if c > 1 then .error .valueError
  else querySetFirst q db

/-- Mapping built by a Python dict comprehension: left to right, an existing
key keeps its position and is overwritten. -/
def dictOfPairs (l : List (Value × Row)) : List (Value × Row) :=
  l.foldl
    (fun acc kv =>
      if acc.any (·.1 = kv.1) then acc.map (fun p => if p.1 = kv.1 then kv else p)
      else acc ++ [kv]) []

/-- QuerySet.in_bulk: an empty id sequence short-circuits to an empty mapping
with no query issued; None fetches the clone's full result; a non-empty id
sequence filters by `field_name__in` first.  Returns the mapping together with
the number of queries issued. -/
def querySetInBulk (q : QuerySetState) (db : DB) (idList : Option (List Value))
    (fieldName : String) : Except PyErr (List (Value × Row) × Nat) :=
  match idList with
  | some [] => .ok ([], 0)
  | some (i :: ids) => do
      let q2 ← querySetFilterOne q (fieldName ++ "__in") (.seq (i :: ids))
      let rows ← querySetAll q2 db
      .ok (dictOfPairs (rows.map (fun r => (rowLookup fieldName r, r))), 1)
  | none => do
      let rows ← querySetAll q db
      .ok (dictOfPairs (rows.map (fun r => (rowLookup fieldName r, r))), 1)

/-!
Reference semantics of QuerySet._clone.

`_clone` constructs a fresh QuerySet (allocating fresh empty dicts) and then
rebinds its `_where` / `_joins` / ... attributes to the caller's objects, so
the clone and the original share those dicts.  To observe this aliasing, the
`_where` dict is held in an explicit heap and QuerySet objects hold references
into it.
-/

/-- Heap of `_where` dicts, with an allocation counter. -/
structure PyHeap where
  nextRef : Nat
  whereDicts : List (Nat × List (String × Pred))
  deriving DecidableEq, Repr

/-- The empty heap. -/
def emptyHeap : PyHeap := { nextRef := 0, whereDicts := [] }

/-- Allocates a fresh dict on the heap. -/
def heapAlloc (h : PyHeap) (v : List (String × Pred)) : Nat × PyHeap :=
  (h.nextRef, { nextRef := h.nextRef + 1, whereDicts := h.whereDicts ++ [(h.nextRef, v)] })

/-- Reads the dict behind a reference. -/
def heapRead (h : PyHeap) (r : Nat) : List (String × Pred) :=
  (((h.whereDicts.find? (·.1 = r))).map (·.2)).getD []

/-- Writes one key of the dict behind a reference (in-place mutation). -/
def heapWriteKey (h : PyHeap) (r : Nat) (k : String) (p : Pred) : PyHeap :=
  { h with whereDicts :=
      h.whereDicts.map (fun e => if e.1 = r then (e.1, dictSet e.2 k p) else e) }

/-- A QuerySet object in reference form: the model plus the reference to its
`_where` dict. -/
structure QuerySetObj where
  model : ModelCls
  whereRef : Nat
  deriving DecidableEq, Repr

/-- QuerySet.__init__ in reference form: allocates a fresh empty `_where`. -/
def querySetNew (m : ModelCls) (h : PyHeap) : QuerySetObj × PyHeap :=
  let (r, h2) := heapAlloc h []
  ({ model := m, whereRef := r }, h2)

/-- QuerySet._clone in reference form: `self.__class__(model, session)`
allocates a fresh dict, after which `clone._where = self._where` rebinds the
clone to the caller's dict — the two objects now share it. -/
def querySetCloneObj (q : QuerySetObj) (h : PyHeap) : QuerySetObj × PyHeap :=
  let (q2, h2) := querySetNew q.model h
  ({ q2 with whereRef := q.whereRef }, h2)

/-- QuerySet.filter in reference form for one keyword argument: clones, then
assigns `obj._where[filter_name] = op(column, value)` — a write into the dict
shared with the original. -/
def querySetFilterObj (q : QuerySetObj) (h : PyHeap) (name : String) (v : FilterVal) :
    Except PyErr (QuerySetObj × PyHeap) := do
  let (r, opn) ← qsFilterResolve q.model name
  let (obj, h2) := querySetCloneObj q h
  .ok (obj, heapWriteKey h2 obj.whereRef name
    { path := joinSegs r.colPath, col := r.col, op := opn, val := v })

/-- BaseRepository.delete (src/repositories/base.py): `delete(self.model_cls)`
with no WHERE clause at all. -/
def baseRepositoryDeleteStmt (m : ModelCls) : DeleteStmt :=
  { model := m, whereCls := [], returningCols := [] }

/-!
Evaluation of the wrapped (subquery) select form and derived counts.
-/

/-- Root rows produced by the matching environments of a select statement
started from its own FROM table (the statement's result before DISTINCT,
offset and limit). -/
def matchingRootRows (s : SelectStmt) (db : DB) : List Row :=
  (matchEnvs s db (db s.fromModel)).map envRoot

/-- Result environments of the wrapped form: the subquery's rows become the
virtual root's table, and the outer statement's joins and filters run on it. -/
def evalWrappedEnvs (sub outer : SelectStmt) (db : DB) : List Env :=
  matchEnvs outer db (evalSelectRows sub db (db sub.fromModel))

/-- Number of distinct logical root entities among result environments (what
the entity-mapping layer yields after collapsing fan-out duplicates). -/
def distinctRootCount (envs : List Env) : Nat :=
  ((envs.map envRoot).dedup).length

/-!
Concrete databases and states used by witnesses and counterexamples.
-/

/-- A database holding a single Section row. -/
def dbOneSection : DB := fun m =>
  match m with
  | .Section => [[("id", .int 1), ("name", .str "x"), ("status_id", .int 1)]]
  | _ => []

/-- A database with two Section rows named "x", one of which owns two
Subsection rows (a one-to-many fan-out), plus a third Section named "y". -/
def dbFanOut : DB := fun m =>
  match m with
  | .Section =>
      [[("id", .int 1), ("name", .str "x"), ("status_id", .int 1)],
       [("id", .int 2), ("name", .str "x"), ("status_id", .int 1)],
       [("id", .int 3), ("name", .str "y"), ("status_id", .int 2)]]
  | .Subsection =>
      [[("id", .int 10), ("name", .str "a"), ("section_id", .int 1), ("status_id", .int 1)],
       [("id", .int 11), ("name", .str "b"), ("section_id", .int 1), ("status_id", .int 1)],
       [("id", .int 12), ("name", .str "c"), ("section_id", .int 2), ("status_id", .int 1)]]
  | _ => []

/-- Per-root extensions: the environments a statement's joins and filters
produce from one candidate root row. -/
def rootExtensions (J : List JoinClause) (W : List Pred) (db : DB) (r : Row) : List Env :=
  (evalJoins J db [("", r)]).filter (predsHold W)

end DLR

namespace DLR

/-- Filtering distributes over flatMap. -/
theorem filter_flatMap_eq {α β : Type} (l : List α) (f : α → List β) (p : β → Bool) :
    (l.flatMap f).filter p = l.flatMap (fun a => (f a).filter p) := by
  induction l with
  | nil => rfl
  | cons a t ih => simp [List.flatMap_cons, List.filter_append, ih]

/-- Environments produced by one join clause extend the input environment with
a binding for the clause's path. -/
theorem joinMatches_shape (j : JoinClause) (db : DB) (e : Env) :
    ∀ e2 ∈ joinMatches j db e, ∃ r, e2 = (j.path, r) :: e := by
  intro e2 h2
  unfold joinMatches at h2
  split at h2
  · simp at h2
  · split at h2
    · simp at h2
    · split at h2
      · split at h2
        · simp at h2
          exact ⟨[], h2⟩
        · simp at h2
      · rw [List.mem_map] at h2
        obtain ⟨t, _, rfl⟩ := h2
        exact ⟨t, rfl⟩

/-- Join evaluation never changes the row bound to the FROM entity, provided no
join clause reuses the empty path. -/
theorem evalJoins_root_eq (db : DB) (js : List JoinClause)
    (hne : ∀ j ∈ js, j.path ≠ "") :
    ∀ e e2, e2 ∈ evalJoins js db e → envLookup "" e2 = envLookup "" e := by
  induction js with
  | nil =>
      intro e e2 h2
      unfold evalJoins at h2
      simp at h2
      subst h2
      rfl
  | cons j rest ih =>
      intro e e2 h2
      unfold evalJoins at h2
      rw [List.mem_flatMap] at h2
      obtain ⟨e1, he1, h2⟩ := h2
      have hr := ih (fun j' h => hne j' (List.mem_cons_of_mem _ h)) e1 e2 h2
      obtain ⟨r, rfl⟩ := joinMatches_shape j db e e1 he1
      rw [hr]
      have hj : j.path ≠ "" := hne j (List.mem_cons_self _ _)
      simp [envLookup, List.find?, hj]

/-- The matching environments of a statement decompose into per-root
extensions. -/
theorem matchEnvs_flatMap (s : SelectStmt) (db : DB) (rows : List Row) :
    matchEnvs s db rows = rows.flatMap (rootExtensions s.joins s.whereCls db) := by
  unfold matchEnvs rootExtensions
  rw [filter_flatMap_eq]

/-- Every per-root extension keeps its root row. -/
theorem rootExtensions_root (db : DB) (J : List JoinClause) (W : List Pred)
    (hne : ∀ j ∈ J, j.path ≠ "") (r : Row) :
    ∀ e ∈ rootExtensions J W db r, envRoot e = r := by
  intro e he
  unfold rootExtensions at he
  have h := evalJoins_root_eq db J hne [("", r)] e (List.mem_of_mem_filter he)
  unfold envRoot
  rw [h]
  rfl

/-- Paths of the compiled new-shape join clauses are the tree's keys. -/
theorem compileJoinsNew_paths (root : ModelCls) (tree : List (String × JoinNodeData)) :
    ∀ j ∈ compileJoinsNew root tree, j.path ∈ tree.map (·.1) := by
  intro j hj
  unfold compileJoinsNew at hj
  rw [List.mem_map] at hj
  obtain ⟨e, he, rfl⟩ := hj
  exact List.mem_map.mpr ⟨e, he, rfl⟩

/-- Deduplicated length is monotone under list inclusion. -/
theorem dedup_length_le_of_subset {α : Type} [DecidableEq α] {l l2 : List α}
    (h : l ⊆ l2) : l.dedup.length ≤ l2.dedup.length := by
  rw [← List.card_toFinset, ← List.card_toFinset]
  apply Finset.card_le_card
  intro x hx
  exact List.mem_toFinset.mpr (h (List.mem_toFinset.mp hx))

/-- Root rows of matching environments come from the FROM table (paths of the
joins assumed nonempty). -/
theorem matchEnvs_root_mem (s : SelectStmt) (db : DB) (rows : List Row)
    (hne : ∀ j ∈ s.joins, j.path ≠ "") :
    ∀ e ∈ matchEnvs s db rows, envRoot e ∈ rows := by
  intro e he
  rw [matchEnvs_flatMap, List.mem_flatMap] at he
  obtain ⟨r, hr, he⟩ := he
  rw [rootExtensions_root db s.joins s.whereCls hne r e he]
  exact hr

/-- C10: BaseRepository.delete compiles an unconditional DELETE against the
entity's table — no WHERE clause, no RETURNING, and evaluating it on any
database state leaves the root entity's table empty (every row deleted), with
no confirmation or row-count validation step anywhere in its type. -/
theorem claim_C10_repository_delete_unconditional (m : ModelCls) (db : DB) :
    (baseRepositoryDeleteStmt m).whereCls = [] ∧
    (baseRepositoryDeleteStmt m).returningCols = [] ∧
    evalDeleteStmt (baseRepositoryDeleteStmt m) db = [] := by
  refine ⟨rfl, rfl, ?_⟩
  simp [evalDeleteStmt, dmlWheresHold, baseRepositoryDeleteStmt]

/-- C3: the claim says a freshly constructed query-builder state is empty; the
QuerySet constructor indeed creates the all-empty state, but
QueryBuilder.__init__ hard-codes a sample filter, a sample join tree, sample
eager-load paths and a sample ordering for every model class, so the freshly
constructed QueryBuilder state is not empty. -/
theorem claim_C3_builder_init_not_empty :
    (querySetInit .Section) =
      { model := .Section, qsWhere := [], qsJoins := [], qsOptions := [],
        ordering := [], qLimit := none, qOffset := none, returningCols := none } ∧
    (queryBuilderInit .Section).whereDict = [("name", .eq, .v (.str "значение"))] ∧
    (queryBuilderInit .Section).optionsList = ["subsections__status", "status"] ∧
    (queryBuilderInit .Section).joins ≠ [] ∧
    (queryBuilderInit .Section).orderDict = [("status_id", .asc), ("name", .desc)] := by
  refine ⟨rfl, rfl, rfl, ?_, rfl⟩
  decide

/-- C2: the claim says chain methods leave the original object's state
unchanged because the clone's internal trees are deep-copied; but
QuerySet._clone rebinds the clone's `_where` to the caller's dict, so the
`obj._where[filter_name] = ...` write inside `filter` mutates the dict the
original QuerySet still references: after `qs.filter(name="x")` on a fresh
QuerySet, the where-dict observed through the original's reference has gained
the new filter. -/
theorem claim_C2_clone_shares_internal_dicts :
    heapRead (querySetNew .Section emptyHeap).2
      ((querySetNew .Section emptyHeap).1).whereRef = [] ∧
    querySetFilterObj (querySetNew .Section emptyHeap).1 (querySetNew .Section emptyHeap).2
        "name" (.v (.str "x")) =
      .ok (⟨.Section, 0⟩,
        ⟨2, [(0, [("name", ⟨"", "name", .eq, .v (.str "x")⟩)]), (1, [])]⟩) ∧
    ((querySetNew .Section emptyHeap).1).whereRef = 0 ∧
    heapRead ⟨2, [(0, [("name", ⟨"", "name", .eq, .v (.str "x")⟩)]), (1, [])]⟩
      ((querySetNew .Section emptyHeap).1).whereRef =
      [("name", ⟨"", "name", .eq, .v (.str "x")⟩)] := by
  refine ⟨rfl, ?_, rfl, rfl⟩
  decide

/-- C4: the claim says get_one_or_none fetches at most 2 rows via limit 2 and
raises MultipleObjectsReturnedError on two or more matches; in the source it
instead starts with a separate count query, and _get_count_stmt's
`self._apply_joins(stmt, self._joins)` call is missing the required `joins`
argument, so get_one_or_none raises TypeError on every QuerySet — here even on
a database whose Section table holds exactly one row, where the claim promises
that row. -/
theorem claim_C4_get_one_or_none_type_error :
    (dbOneSection .Section).length = 1 ∧
    querySetGetOneOrNone (querySetInit .Section) dbOneSection = .error .typeError ∧
    querySetCount (querySetInit .Section) dbOneSection = .error .typeError := by
  refine ⟨rfl, ?_, ?_⟩ <;> decide

/-- C8 counterexample: the claim says limit(n) with n below 1 and offset(n)
with negative n fail eagerly at the builder call; QuerySet.limit and
QuerySet.offset (one of the two cited builder surfaces) perform no validation:
limit(0) and offset(-1) succeed and record the values. -/
theorem claim_C8_counterexample :
    (0 : Int) < 1 ∧ (-1 : Int) < 0 ∧
    querySetLimit (querySetInit .Section) 0 =
      .ok { querySetInit .Section with qLimit := some 0 } ∧
    querySetOffset (querySetInit .Section) (-1) =
      .ok { querySetInit .Section with qOffset := some (-1) } := by
  refine ⟨by decide, by decide, rfl, rfl⟩

/-- C8 amended: QueryBuilder.limit/offset validate eagerly — limit below 1 and
negative offset raise ValueError at the call, all other values are recorded —
while QuerySet.limit/offset record every integer without any validation. -/
theorem claim_C8_limit_offset_validation (st : NewBuilderState) (q : QuerySetState) (n : Int) :
    (n < 1 → queryBuilderLimit st n = .error .valueError) ∧
    (1 ≤ n → queryBuilderLimit st n = .ok { st with nLimit := some n }) ∧
    (n < 0 → queryBuilderOffset st n = .error .valueError) ∧
    (0 ≤ n → queryBuilderOffset st n = .ok { st with nOffset := some n }) ∧
    querySetLimit q n = .ok { q with qLimit := some n } ∧
    querySetOffset q n = .ok { q with qOffset := some n } := by
  refine ⟨fun h => ?_, fun h => ?_, fun h => ?_, fun h => ?_, rfl, rfl⟩
  · simp only [queryBuilderLimit, if_pos h]
  · simp only [queryBuilderLimit, if_neg (by omega : ¬ n < 1)]
  · simp only [queryBuilderOffset, if_pos h]
  · simp only [queryBuilderOffset, if_neg (by omega : ¬ n < 0)]

/-- C8 witness: the amended behavior at concrete inputs — builder limit(0) and
offset(-1) raise ValueError, builder limit(5) records, and QuerySet limit(0)
records without error. -/
theorem claim_C8_witness :
    queryBuilderLimit (queryBuilderInit .Section) 0 = .error .valueError ∧
    queryBuilderOffset (queryBuilderInit .Section) (-1) = .error .valueError ∧
    queryBuilderLimit (queryBuilderInit .Section) 5 =
      .ok { queryBuilderInit .Section with nLimit := some 5 } ∧
    querySetLimit (querySetInit .Section) 0 =
      .ok { querySetInit .Section with qLimit := some 0 } :=
  ⟨(claim_C8_limit_offset_validation (queryBuilderInit .Section) (querySetInit .Section) 0).1
      (by decide),
   (claim_C8_limit_offset_validation (queryBuilderInit .Section) (querySetInit .Section)
      (-1)).2.2.1 (by decide),
   (claim_C8_limit_offset_validation (queryBuilderInit .Section) (querySetInit .Section) 5).2.1
      (by decide),
   (claim_C8_limit_offset_validation (queryBuilderInit .Section) (querySetInit .Section) 0).2.2.2.2.1⟩

/-- Bound on the evaluated count-distinct: never more than the distinct values
of the counted column in the FROM table. -/
theorem evalCountVal_le_table (s : SelectStmt) (db : DB) (c : String)
    (hproj : s.proj = .countDistinctCol s.fromModel c)
    (hne : ∀ j ∈ s.joins, j.path ≠ "") :
    evalCountVal s db ≤ ((db s.fromModel).map (rowLookup c)).dedup.length := by
  unfold evalCountVal
  rw [hproj]
  apply dedup_length_le_of_subset
  intro x hx
  rw [List.mem_map] at hx
  obtain ⟨e, he, rfl⟩ := hx
  exact List.mem_map.mpr ⟨envRoot e, matchEnvs_root_mem s db _ hne e he, rfl⟩

/-- Inversion of a successful Except bind. -/
theorem exceptBind_ok_inv {e a b : Type} {x : Except e a} {f : a → Except e b} {r : b}
    (h : x >>= f = .ok r) : ∃ v, x = .ok v ∧ f v = .ok r := by
  cases x with
  | error err => exact Except.noConfusion h
  | ok v => exact ⟨v, rfl, h⟩

/-- Entries of a dict-comprehension mapping come from the source pairs. -/
theorem dictOfPairs_mem (l : List (Value × Row)) :
    ∀ kv ∈ dictOfPairs l, kv ∈ l := by
  suffices h : ∀ (l2 : List (Value × Row)) (acc : List (Value × Row)),
      ∀ kv ∈ l2.foldl
        (fun acc kv =>
          if acc.any (·.1 = kv.1) then acc.map (fun p => if p.1 = kv.1 then kv else p)
          else acc ++ [kv]) acc,
      kv ∈ acc ∨ kv ∈ l2 by
    intro kv hkv
    rcases h l [] kv hkv with h2 | h2
    · simp at h2
    · exact h2
  intro l2
  induction l2 with
  | nil => intro acc kv h2; exact Or.inl h2
  | cons x t ih =>
    intro acc kv h2
    rw [List.foldl_cons] at h2
    rcases ih _ kv h2 with h3 | h3
    · by_cases hc : acc.any (·.1 = x.1)
      · rw [if_pos hc, List.mem_map] at h3
        obtain ⟨p, hp, hpe⟩ := h3
        by_cases hpx : p.1 = x.1
        · rw [if_pos hpx] at hpe
          exact Or.inr (hpe ▸ List.mem_cons_self _ _)
        · rw [if_neg hpx] at hpe
          exact Or.inl (hpe ▸ hp)
      · rw [if_neg hc, List.mem_append] at h3
        rcases h3 with h4 | h4
        · exact Or.inl h4
        · simp at h4
          exact Or.inr (h4 ▸ List.mem_cons_self _ _)
    · exact Or.inr (List.mem_cons_of_mem _ h3)

/-- Every entry of the mapping built from keyed rows is keyed by its own row's
field value. -/
theorem dictOfPairs_keyed (rows : List Row) (f : String) :
    ∀ kv ∈ dictOfPairs (rows.map (fun r => (rowLookup f r, r))),
      kv.1 = rowLookup f kv.2 := by
  intro kv hkv
  have := dictOfPairs_mem _ kv hkv
  rw [List.mem_map] at this
  obtain ⟨r, _, rfl⟩ := this
  rfl

/-- C9 counterexample: the claim covers every QuerySet, but on a QuerySet with
a limit recorded, in_bulk(None) does not return a mapping over all rows — the
underlying `query` property takes its pagination branch and raises TypeError
(the malformed `_apply_joins` call) even on a one-row table. -/
theorem claim_C9_counterexample :
    (dbOneSection .Section).length = 1 ∧
    querySetInBulk { querySetInit .Section with qLimit := some 1 } dbOneSection none "id" =
      .error .typeError := by
  refine ⟨rfl, ?_⟩
  decide

/-- C9 amended: in_bulk on an empty id sequence returns the empty mapping
without issuing any query, for every QuerySet; on None it returns the mapping
over all rows the QuerySet's query fetches, provided no limit/offset is
recorded (with pagination recorded the underlying query raises TypeError); and
whenever in_bulk returns a mapping, every entry is keyed by the value of
field_name on its own row. -/
theorem claim_C9_in_bulk (q : QuerySetState) (db : DB) (fieldName : String) :
    querySetInBulk q db (some []) fieldName = .ok ([], 0) ∧
    (q.qLimit = none → q.qOffset = none →
      ∃ rows, querySetAll q db = .ok rows ∧
        querySetInBulk q db none fieldName =
          .ok (dictOfPairs (rows.map (fun r => (rowLookup fieldName r, r))), 1)) ∧
    (∀ idList pairs n, querySetInBulk q db idList fieldName = .ok (pairs, n) →
      ∀ kv ∈ pairs, kv.1 = rowLookup fieldName kv.2) := by
  refine ⟨rfl, fun hL hO => ?_, fun idList pairs n hok => ?_⟩
  · have hq : querySetQuery q = .ok (.plain
        { proj := .entity q.model
          fromModel := q.model
          joins := compileQsJoins q.model q.qsJoins
          whereCls := q.qsWhere.map (·.2)
          orderBy := q.ordering
          sLimit := none, sOffset := none, sDistinct := false
          opts := q.qsOptions.map (fun c => { chain := c })
          execOpts := [] }) := by
      unfold querySetQuery
      rw [hL, hO]
      rfl
    refine ⟨evalSelectRows
        { proj := .entity q.model
          fromModel := q.model
          joins := compileQsJoins q.model q.qsJoins
          whereCls := q.qsWhere.map (·.2)
          orderBy := q.ordering
          sLimit := none, sOffset := none, sDistinct := false
          opts := q.qsOptions.map (fun c => { chain := c })
          execOpts := [] } db (db q.model), ?_, ?_⟩
    · unfold querySetAll
      rw [hq]
      rfl
    · unfold querySetInBulk querySetAll
      rw [hq]
      rfl
  · cases idList with
    | some l =>
        cases l with
        | nil =>
            simp only [querySetInBulk] at hok
            simp at hok
            obtain ⟨h1, _⟩ := hok
            subst h1
            intro kv hkv
            simp at hkv
        | cons i ids =>
            simp only [querySetInBulk] at hok
            obtain ⟨q2, _, hok2⟩ := exceptBind_ok_inv hok
            obtain ⟨rows, _, hok3⟩ := exceptBind_ok_inv hok2
            simp only [Except.ok.injEq, Prod.mk.injEq] at hok3
            obtain ⟨hp, _⟩ := hok3
            subst hp
            exact dictOfPairs_keyed rows fieldName
    | none =>
        simp only [querySetInBulk] at hok
        obtain ⟨rows, _, hok3⟩ := exceptBind_ok_inv hok
        simp only [Except.ok.injEq, Prod.mk.injEq] at hok3
        obtain ⟨hp, _⟩ := hok3
        subst hp
        exact dictOfPairs_keyed rows fieldName

/-- Shape tag of a compiled select: 2 for the wrapped (subquery) form, 1 for a
single statement, 0 for an error. -/
def compiledForm : Except PyErr Stmt → Nat
  | .ok (.wrapped _ _) => 2
  | .ok (.plain _) => 1
  | .error _ => 0

/-- ORDER BY of the subquery of a compiled wrapped select. -/
def compiledSubOrderBy : Except PyErr Stmt → Option (List OrderExpr)
  | .ok (.wrapped sub _) => some sub.orderBy
  | _ => none

/-- ORDER BY of the outer statement of a compiled wrapped select. -/
def compiledOuterOrderBy : Except PyErr Stmt → Option (List OrderExpr)
  | .ok (.wrapped _ outer) => some outer.orderBy
  | _ => none

/-- A builder state with an eager-load path, a root ordering and a limit. -/
def paginatedState : NewBuilderState :=
  { model_cls := .Section
    whereDict := [("name", .eq, .v (.str "x"))]
    joins := [("subsections",
      { model_cls := .Subsection, nodeWhere := [], nodeOrder := [], is_outer := false })]
    optionsList := ["subsections"]
    orderDict := [("name", .desc)]
    nLimit := some 2
    nOffset := none
    returningCols := []
    execution_options := []
    values_list := [] }

/-- The same state with no limit and offset zero recorded. -/
def zeroOffsetState : NewBuilderState :=
  { paginatedState with nLimit := none, nOffset := some 0 }

/-- C1 counterexample: the claim says the subquery applies the ordering inside
and that the wrapping fires whenever a limit and/or offset is set.  On a state
with a root ordering, an eager-load path and limit 2, the compiled subquery has
an empty ORDER BY (and the outer statement drops the root ordering too); and on
a state with offset zero recorded, `if self._limit or self._offset` is falsy,
so no subquery is built at all. -/
theorem claim_C1_counterexample :
    paginatedState.optionsList = ["subsections"] ∧
    paginatedState.nLimit = some 2 ∧
    paginatedState.orderDict = [("name", .desc)] ∧
    compiledForm (buildSelectStmt paginatedState) = 2 ∧
    compiledSubOrderBy (buildSelectStmt paginatedState) = some [] ∧
    compiledOuterOrderBy (buildSelectStmt paginatedState) = some [] ∧
    zeroOffsetState.optionsList = ["subsections"] ∧
    zeroOffsetState.nOffset = some 0 ∧
    compiledForm (buildSelectStmt zeroOffsetState) = 1 := by
  decide

/-- C9 witness: the amended behavior on a fresh Section QuerySet over the
one-row database — empty-sequence short-circuit with zero queries, the
None-case mapping over all rows, and the keyed-entries property at a concrete
successful call. -/
theorem claim_C9_witness :
    querySetInBulk (querySetInit .Section) dbOneSection (some []) "id" = .ok ([], 0) ∧
    (∃ rows, querySetAll (querySetInit .Section) dbOneSection = .ok rows ∧
      querySetInBulk (querySetInit .Section) dbOneSection none "id" =
        .ok (dictOfPairs (rows.map (fun r => (rowLookup "id" r, r))), 1)) ∧
    (∀ kv ∈ [((Value.int 1 : Value),
        ([("id", Value.int 1), ("name", Value.str "x"), ("status_id", Value.int 1)] : Row))],
      kv.1 = rowLookup "id" kv.2) :=
  ⟨(claim_C9_in_bulk (querySetInit .Section) dbOneSection "id").1,
   (claim_C9_in_bulk (querySetInit .Section) dbOneSection "id").2.1 rfl rfl,
   (claim_C9_in_bulk (querySetInit .Section) dbOneSection "id").2.2 none
     [((Value.int 1 : Value),
        ([("id", Value.int 1), ("name", Value.str "x"), ("status_id", Value.int 1)] : Row))]
     1 (by decide)⟩

/-- Bind of a successful Except value reduces to the continuation. -/
theorem except_ok_bind {e a b : Type} (v : a) (f : a → Except e b) :
    (Except.ok v : Except e a) >>= f = f v := rfl

/-- A conjunction of appended WHERE lists splits. -/
theorem predsHold_append (a b : List Pred) (e : Env) :
    predsHold (a ++ b) e = (predsHold a e && predsHold b e) := by
  unfold predsHold
  exact List.all_append

/-- The subquery `_build_stmt_w_options` compiles in its pagination branch: a
DISTINCT select of the root entity with the root filters, the per-node join
filters, the join tree, and the limit/offset — and an empty ORDER BY. -/
def c1Sub (st : NewBuilderState) (rws : List Pred) : SelectStmt :=
  { proj := .entity st.model_cls
    fromModel := st.model_cls
    joins := compileJoinsNew st.model_cls st.joins
    whereCls := rws ++ joinWheres st.joins
    orderBy := []
    sLimit := st.nLimit, sOffset := st.nOffset, sDistinct := true
    opts := [], execOpts := [] }

/-- The outer statement `_build_stmt_w_options` compiles in its pagination
branch: a select of the aliased virtual root with the join tree re-joined onto
it, the per-node join filters and orderings, and the eager-load options. -/
def c1Outer (st : NewBuilderState) (os : List OptionChain) : SelectStmt :=
  { proj := .subAlias st.model_cls
    fromModel := st.model_cls
    joins := compileJoinsNew st.model_cls st.joins
    whereCls := joinWheres st.joins
    orderBy := joinOrders st.joins
    sLimit := none, sOffset := none, sDistinct := false
    opts := os, execOpts := [] }

/-- With eager-load paths present and truthy pagination, build_select_stmt
compiles exactly the wrapped pair of `c1Sub` and `c1Outer`. -/
theorem c1_compile (st : NewBuilderState) (rws : List Pred) (os : List OptionChain)
    (hopt : st.optionsList ≠ [])
    (htruthy : (intTruthy st.nLimit || intTruthy st.nOffset) = true)
    (hws : rootWheres st.model_cls st.whereDict = .ok rws)
    (hos : getOptionsCompiled (st.joins.map (·.1)) st.optionsList = .ok os) :
    buildSelectStmt st = .ok (.wrapped (c1Sub st rws) (c1Outer st os)) := by
  have hopt2 : st.optionsList.isEmpty = false := by
    cases h : st.optionsList with
    | nil => exact absurd h hopt
    | cons a l => rfl
  simp only [buildSelectStmt, hopt2, Bool.false_eq_true, if_false, buildStmtWOptions,
    htruthy, if_true, applyJoinsNew, hws, hos, except_ok_bind, c1Sub, c1Outer]
  rfl

/-- The compiled subquery evaluates to the distinct matching root rows with
the recorded offset and limit applied. -/
theorem c1_sub_eval (st : NewBuilderState) (rws : List Pred) (db : DB) :
    evalSelectRows (c1Sub st rws) db (db st.model_cls) =
      applyLimitRows st.nLimit (applyOffsetRows st.nOffset
        ((matchingRootRows (c1Sub st rws) db).dedup)) := rfl

/-- Offset-then-limit application yields a sublist. -/
theorem applyLimitOffset_sublist (L O : Option Int) (l : List Row) :
    (applyLimitRows L (applyOffsetRows O l)).Sublist l := by
  have h1 : (applyOffsetRows O l).Sublist l := by
    cases O with
    | none => exact List.Sublist.refl l
    | some o => exact List.drop_sublist _ _
  cases L with
  | none => exact h1
  | some k => exact List.Sublist.trans (List.take_sublist _ _) h1

/-- Length of the offset-then-limit application: the limit (the full length
when unset) capped by what remains after the offset. -/
theorem applyLimitOffset_length (L O : Option Int) (l : List Row) :
    (applyLimitRows L (applyOffsetRows O l)).length =
      min ((L.map (fun i => i.toNat)).getD l.length)
        (l.length - (O.map (fun i => i.toNat)).getD 0) := by
  cases L with
  | none =>
      cases O with
      | none => simp [applyLimitRows, applyOffsetRows]
      | some o =>
          simp [applyLimitRows, applyOffsetRows,
            Nat.min_eq_right (Nat.sub_le l.length o.toNat)]
  | some k =>
      cases O with
      | none => simp [applyLimitRows, applyOffsetRows]
      | some o => simp [applyLimitRows, applyOffsetRows]

/-- Joining the join tree back onto the subquery's virtual root neither drops
nor duplicates logical roots: the number of distinct root entities in the
outer statement's result over any selection S of distinct matching root rows
is exactly the length of S. -/
theorem c1_wrap_count (st : NewBuilderState) (rws : List Pred) (os : List OptionChain)
    (db : DB) (S : List Row)
    (hS : S.Sublist ((matchingRootRows (c1Sub st rws) db).dedup))
    (hne : ∀ p ∈ st.joins.map (·.1), p ≠ "") :
    distinctRootCount (matchEnvs (c1Outer st os) db S) = S.length := by
  have hne2 : ∀ j ∈ compileJoinsNew st.model_cls st.joins, j.path ≠ "" :=
    fun j hj => hne j.path (compileJoinsNew_paths _ _ j hj)
  have hSsubM : ∀ r ∈ S, r ∈ matchingRootRows (c1Sub st rws) db :=
    fun r hr => List.dedup_subset _ (hS.subset hr)
  have hext : ∀ r ∈ matchingRootRows (c1Sub st rws) db,
      rootExtensions (compileJoinsNew st.model_cls st.joins) (joinWheres st.joins) db r ≠ [] := by
    intro r hr
    unfold matchingRootRows at hr
    rw [matchEnvs_flatMap, List.mem_map] at hr
    obtain ⟨e, he, hre⟩ := hr
    rw [List.mem_flatMap] at he
    obtain ⟨r0, _, he⟩ := he
    have hroot := rootExtensions_root db (c1Sub st rws).joins (c1Sub st rws).whereCls
      hne2 r0 e he
    rw [hroot] at hre
    subst hre
    unfold rootExtensions at he
    rw [List.mem_filter] at he
    obtain ⟨hej, hep⟩ := he
    rw [show (c1Sub st rws).whereCls = rws ++ joinWheres st.joins from rfl,
        predsHold_append] at hep
    intro hnil
    rw [List.eq_nil_iff_forall_not_mem] at hnil
    exact hnil e (List.mem_filter.mpr ⟨hej, by
      rcases Bool.and_eq_true_iff.mp hep with ⟨_, h2⟩
      exact h2⟩)
  have hchar : ∀ x,
      x ∈ (matchEnvs (c1Outer st os) db S).map envRoot ↔ x ∈ S := by
    intro x
    constructor
    · intro hx
      rw [List.mem_map] at hx
      obtain ⟨e, he, rfl⟩ := hx
      rw [matchEnvs_flatMap, List.mem_flatMap] at he
      obtain ⟨r, hrS, he⟩ := he
      rw [rootExtensions_root db (c1Outer st os).joins (c1Outer st os).whereCls hne2 r e he]
      exact hrS
    · intro hx
      obtain ⟨e, he⟩ := List.exists_mem_of_ne_nil _ (hext x (hSsubM x hx))
      rw [List.mem_map]
      refine ⟨e, ?_, rootExtensions_root db _ _ hne2 x e he⟩
      rw [matchEnvs_flatMap, List.mem_flatMap]
      exact ⟨x, hx, he⟩
  have hnodupS : S.Nodup := List.Nodup.sublist hS (List.nodup_dedup _)
  unfold distinctRootCount
  calc ((matchEnvs (c1Outer st os) db S).map envRoot).dedup.length
      = ((matchEnvs (c1Outer st os) db S).map envRoot).toFinset.card :=
        (List.card_toFinset _).symm
    _ = S.toFinset.card := by
        congr 1
        ext x
        simp only [List.mem_toFinset]
        exact hchar x
    _ = S.length := List.toFinset_card_of_nodup hnodupS

/-- The number of distinct root entities in the wrapped statement's result is
the limit (uncapped when unset) capped by the distinct matching root rows that
remain after the offset. -/
theorem c1_distinct_count (st : NewBuilderState) (rws : List Pred) (os : List OptionChain)
    (db : DB)
    (hne : ∀ p ∈ st.joins.map (·.1), p ≠ "") :
    distinctRootCount (evalWrappedEnvs (c1Sub st rws) (c1Outer st os) db) =
      min ((st.nLimit.map (fun i => i.toNat)).getD
            ((matchingRootRows (c1Sub st rws) db).dedup.length))
        ((matchingRootRows (c1Sub st rws) db).dedup.length -
          (st.nOffset.map (fun i => i.toNat)).getD 0) := by
  have h1 : evalWrappedEnvs (c1Sub st rws) (c1Outer st os) db =
      matchEnvs (c1Outer st os) db
        (applyLimitRows st.nLimit (applyOffsetRows st.nOffset
          ((matchingRootRows (c1Sub st rws) db).dedup))) := by
    unfold evalWrappedEnvs
    rw [show (c1Sub st rws).fromModel = st.model_cls from rfl, c1_sub_eval st rws db]
  rw [h1, c1_wrap_count st rws os db _ (applyLimitOffset_sublist _ _ _) hne,
    applyLimitOffset_length]

/-- C1 amended: whenever at least one eager-load path is present and the
pagination fields are truthy (a limit, or a nonzero offset — offset 0 behaves
as unset), the compiled select wraps a subquery that selects distinct
root-entity rows only, with the filters, the limit and the offset applied
inside that subquery but the ordering dropped (it is applied neither inside
the subquery nor at the root level outside), and then joins the join tree's
relations — eager-load projections included — onto the aliased virtual root;
over N distinct matching root rows the result holds exactly min(k, N − o)
distinct logical root entities (k the limit, N when unset; o the offset, 0
when unset), never fewer due to one-to-many fan-out and never duplicated
roots. -/
theorem claim_C1_pagination_subquery (st : NewBuilderState) (db : DB)
    (rws : List Pred) (os : List OptionChain)
    (hopt : st.optionsList ≠ [])
    (htruthy : (intTruthy st.nLimit || intTruthy st.nOffset) = true)
    (hws : rootWheres st.model_cls st.whereDict = .ok rws)
    (hos : getOptionsCompiled (st.joins.map (·.1)) st.optionsList = .ok os)
    (hne : ∀ p ∈ st.joins.map (·.1), p ≠ "") :
    buildSelectStmt st = .ok (.wrapped (c1Sub st rws) (c1Outer st os)) ∧
    (c1Sub st rws).sDistinct = true ∧
    (c1Sub st rws).orderBy = [] ∧
    (c1Sub st rws).whereCls = rws ++ joinWheres st.joins ∧
    (c1Sub st rws).sLimit = st.nLimit ∧
    (c1Sub st rws).sOffset = st.nOffset ∧
    (c1Outer st os).proj = .subAlias st.model_cls ∧
    (c1Outer st os).joins = compileJoinsNew st.model_cls st.joins ∧
    (c1Outer st os).opts = os ∧
    evalSelectRows (c1Sub st rws) db (db st.model_cls) =
      applyLimitRows st.nLimit (applyOffsetRows st.nOffset
        ((matchingRootRows (c1Sub st rws) db).dedup)) ∧
    distinctRootCount (evalWrappedEnvs (c1Sub st rws) (c1Outer st os) db) =
      min ((st.nLimit.map (fun i => i.toNat)).getD
            ((matchingRootRows (c1Sub st rws) db).dedup.length))
        ((matchingRootRows (c1Sub st rws) db).dedup.length -
          (st.nOffset.map (fun i => i.toNat)).getD 0) :=
  ⟨c1_compile st rws os hopt htruthy hws hos, rfl, rfl, rfl, rfl, rfl,
    rfl, rfl, rfl, c1_sub_eval st rws db,
    c1_distinct_count st rws os db hne⟩

/-- The paginated state with no limit and offset 1 recorded. -/
def offsetOnlyState : NewBuilderState :=
  { paginatedState with nLimit := none, nOffset := some 1 }

/-- C1 witness: the pagination subquery behavior at the concrete paginated
state (eager-load of subsections, name filter, root ordering, limit 2) over
the fan-out database, plus the distinct-root count at the offset-only variant
(offset 1, no limit). -/
theorem claim_C1_witness :
    (buildSelectStmt paginatedState =
      .ok (.wrapped (c1Sub paginatedState [⟨"", "name", .eq, .v (.str "x")⟩])
        (c1Outer paginatedState [⟨["subsections"]⟩])) ∧
    (c1Sub paginatedState [⟨"", "name", .eq, .v (.str "x")⟩]).sDistinct = true ∧
    (c1Sub paginatedState [⟨"", "name", .eq, .v (.str "x")⟩]).orderBy = [] ∧
    (c1Sub paginatedState [⟨"", "name", .eq, .v (.str "x")⟩]).whereCls =
      [⟨"", "name", .eq, .v (.str "x")⟩] ++ joinWheres paginatedState.joins ∧
    (c1Sub paginatedState [⟨"", "name", .eq, .v (.str "x")⟩]).sLimit = some 2 ∧
    (c1Sub paginatedState [⟨"", "name", .eq, .v (.str "x")⟩]).sOffset = none ∧
    (c1Outer paginatedState [⟨["subsections"]⟩]).proj = .subAlias paginatedState.model_cls ∧
    (c1Outer paginatedState [⟨["subsections"]⟩]).joins =
      compileJoinsNew paginatedState.model_cls paginatedState.joins ∧
    (c1Outer paginatedState [⟨["subsections"]⟩]).opts = [⟨["subsections"]⟩] ∧
    evalSelectRows (c1Sub paginatedState [⟨"", "name", .eq, .v (.str "x")⟩]) dbFanOut
        (dbFanOut paginatedState.model_cls) =
      applyLimitRows (some 2) (applyOffsetRows none
        ((matchingRootRows (c1Sub paginatedState
          [⟨"", "name", .eq, .v (.str "x")⟩]) dbFanOut).dedup)) ∧
    distinctRootCount (evalWrappedEnvs (c1Sub paginatedState [⟨"", "name", .eq, .v (.str "x")⟩])
        (c1Outer paginatedState [⟨["subsections"]⟩]) dbFanOut) =
      min 2 ((matchingRootRows (c1Sub paginatedState
        [⟨"", "name", .eq, .v (.str "x")⟩]) dbFanOut).dedup.length - 0)) ∧
    distinctRootCount (evalWrappedEnvs (c1Sub offsetOnlyState [⟨"", "name", .eq, .v (.str "x")⟩])
        (c1Outer offsetOnlyState [⟨["subsections"]⟩]) dbFanOut) =
      min ((matchingRootRows (c1Sub offsetOnlyState
          [⟨"", "name", .eq, .v (.str "x")⟩]) dbFanOut).dedup.length)
        ((matchingRootRows (c1Sub offsetOnlyState
          [⟨"", "name", .eq, .v (.str "x")⟩]) dbFanOut).dedup.length - 1) :=
  ⟨claim_C1_pagination_subquery paginatedState dbFanOut
    [⟨"", "name", .eq, .v (.str "x")⟩] [⟨["subsections"]⟩]
    (by decide) (by decide) (by decide) (by decide) (by decide),
   (claim_C1_pagination_subquery offsetOnlyState dbFanOut
    [⟨"", "name", .eq, .v (.str "x")⟩] [⟨["subsections"]⟩]
    (by decide) (by decide) (by decide) (by decide)
    (by decide)).2.2.2.2.2.2.2.2.2.2⟩

end DLR

namespace DLR

/-- Specification-side classification of a dotted filter path, following the
spec's error taxonomy: a path is ok, ambiguous (two distinct scalar fields
before the relationship chain ends), terminates inside a relationship
(no column), contains an unknown segment, or falls outside these cases. -/
inductive PathClass where
  | okPath
  | ambiguousMulti
  | noColumn
  | unknownSeg
  | otherPath
  deriving DecidableEq, Repr

/-- Walks the path segments like both resolvers do, but only to classify the
path: relationships descend (a relationship as final segment is the
no-column case), a second distinct column is the ambiguous case, and a
segment that is neither relationship, column nor lookup is unknown. -/
def classifyLoop : ModelCls → Option String → List String → PathClass
  | _, found, [] =>
      match found with
      | some _ => .okPath
      | none => .noColumn
  | m, found, a :: rest =>
      match getRelationship m a with
      | some rel => if rest.isEmpty then .noColumn else classifyLoop rel.target found rest
      | none =>
        if hasColumn m a then
          match found with
          | none => classifyLoop m (some a) rest
          | some c => if a = c then .otherPath else .ambiguousMulti
        else if lookupNames.contains a then .otherPath
        else .unknownSeg

/-- Classifies a full dotted path after stripping a trailing lookup segment,
mirroring the pop-last-if-lookup step both resolvers perform. -/
def classifyPath (m : ModelCls) (name : String) : PathClass :=
  let attrs := pathSegs name
  let attrs2 := if lookupNames.contains ((attrs.getLast?).getD "") then attrs.dropLast else attrs
  classifyLoop m none attrs2

/-- True when the last two segments of a path coincide; QuerySet.filter then
pops the duplicate last segment as a lookup, a corner the classification's
column-based pop does not follow. -/
def lastTwoEqual (attrs : List String) : Bool :=
  decide (2 ≤ attrs.length) &&
    ((attrs.getLast?).getD "" == (attrs[attrs.length - 2]?).getD "")

-- metadata facts
theorem lookup_not_column : ∀ m : ModelCls, ∀ n ∈ lookupNames, hasColumn m n = false := by
  decide

theorem lookup_not_rel : ∀ m : ModelCls, ∀ n ∈ lookupNames, getRelationship m n = none := by
  decide

theorem rel_not_column : ∀ m : ModelCls, ∀ p ∈ relationshipsOf m, hasColumn m p.1 = false := by
  decide

end DLR

namespace DLR

theorem contains_iff_mem (l : List String) (a : String) :
    l.contains a = true ↔ a ∈ l := by
  induction l with
  | nil => simp
  | cons x t ih => simp [List.contains_cons]

theorem qsLoop_classes (attrs : List String) :
    ∀ (m : ModelCls) (walked : List String) (found : Option (String × List String)),
    (attrs ≠ [] ∨ found ≠ none) →
    (classifyLoop m (found.map (·.1)) attrs = .ambiguousMulti →
      qsFilterLoop m walked found attrs = .error .valueError) ∧
    (classifyLoop m (found.map (·.1)) attrs = .noColumn →
      ∃ m2 c, qsFilterLoop m walked found attrs = .error (.columnNotFound m2 c)) ∧
    (classifyLoop m (found.map (·.1)) attrs = .unknownSeg →
      ∃ m2 c, qsFilterLoop m walked found attrs = .error (.columnNotFound m2 c)) := by
  induction attrs with
  | nil =>
      intro m walked found hnz
      cases found with
      | some c =>
          refine ⟨?_, ?_, ?_⟩ <;> intro hcl <;> simp [classifyLoop] at hcl
      | none =>
          rcases hnz with h | h
          · exact absurd rfl h
          · exact absurd rfl h
  | cons a rest ih =>
      intro m walked found hnz
      cases hrel : getRelationship m a with
      | some rel =>
          cases rest with
          | nil =>
              refine ⟨?_, ?_, ?_⟩ <;> intro hcl
              · simp [classifyLoop, hrel] at hcl
              · exact ⟨m, a, by simp [qsFilterLoop, hrel]⟩
              · simp [classifyLoop, hrel] at hcl
          | cons b rest2 =>
              have hrec := ih rel.target (walked ++ [a]) found (Or.inl (by simp))
              refine ⟨?_, ?_, ?_⟩ <;> intro hcl <;>
                simp only [classifyLoop, hrel, List.isEmpty_cons, if_false,
                  Bool.false_eq_true] at hcl <;>
                simp only [qsFilterLoop, hrel, List.isEmpty_cons] <;>
                simp only [Bool.false_eq_true, if_false]
              · exact hrec.1 hcl
              · exact hrec.2.1 hcl
              · exact hrec.2.2 hcl
      | none =>
          cases hcol : hasColumn m a with
          | true =>
              cases found with
              | none =>
                  have hrec := ih m walked (some (a, walked)) (Or.inr (by simp))
                  refine ⟨?_, ?_, ?_⟩ <;> intro hcl <;>
                    simp only [classifyLoop, hrel, hcol, if_true, Option.map_none,
                      Option.map_some] at hcl <;>
                    simp only [qsFilterLoop, hrel, hcol, Bool.not_true,
                      Bool.true_eq_false, if_false]
                  · exact hrec.1 hcl
                  · exact hrec.2.1 hcl
                  · exact hrec.2.2 hcl
              | some c =>
                  by_cases heq : a = c.1
                  · have hrel2 : getRelationship m c.1 = none := heq ▸ hrel
                    have hcol2 : hasColumn m c.1 = true := heq ▸ hcol
                    refine ⟨?_, ?_, ?_⟩ <;> intro hcl <;>
                      simp [classifyLoop, hrel, hcol, heq, hrel2, hcol2] at hcl
                  · refine ⟨?_, ?_, ?_⟩ <;> intro hcl
                    · simp [qsFilterLoop, hrel, hcol]
                    · simp [classifyLoop, hrel, hcol, heq] at hcl
                    · simp [classifyLoop, hrel, hcol, heq] at hcl
          | false =>
              refine ⟨?_, ?_, ?_⟩ <;> intro hcl
              · simp [classifyLoop, hrel, hcol] at hcl
                split at hcl <;> simp at hcl
              · simp [classifyLoop, hrel, hcol] at hcl
                split at hcl <;> simp at hcl
              · exact ⟨m, a, by simp [qsFilterLoop, hrel, hcol]⟩

end DLR
namespace DLR

/-- The three failing classes of the path classification. -/
def isBadClass : PathClass → Bool
  | .ambiguousMulti => true
  | .noColumn => true
  | .unknownSeg => true
  | _ => false

theorem getRelationship_isSome (m : ModelCls) (a : String) :
    (getRelationship m a).isSome ↔ a ∈ relNamesOf m := by
  unfold getRelationship relNamesOf
  rw [Option.isSome_map']
  rw [List.find?_isSome]
  simp [List.mem_map]

theorem relNames_contains_false (m : ModelCls) (a : String)
    (h : getRelationship m a = none) : (relNamesOf m).contains a = false := by
  rw [Bool.eq_false_iff]
  intro hc
  have := (getRelationship_isSome m a).mpr ((contains_iff_mem _ _).mp hc)
  rw [h] at this
  simp at this

theorem relNames_contains_true (m : ModelCls) (a : String) (rel : RelInfo)
    (h : getRelationship m a = some rel) : (relNamesOf m).contains a = true := by
  rw [contains_iff_mem]
  exact (getRelationship_isSome m a).mp (by rw [h]; rfl)

theorem lookup_contains_not_rel (m : ModelCls) (a : String) (rel : RelInfo)
    (h : getRelationship m a = some rel) : lookupNames.contains a = false := by
  rw [Bool.eq_false_iff]
  intro hc
  have := lookup_not_rel m a ((contains_iff_mem _ _).mp hc)
  rw [h] at this
  exact Option.noConfusion this

theorem lookup_contains_not_col (m : ModelCls) (a : String)
    (h : hasColumn m a = true) : lookupNames.contains a = false := by
  rw [Bool.eq_false_iff]
  intro hc
  have := lookup_not_column m a ((contains_iff_mem _ _).mp hc)
  rw [h] at this
  exact Bool.noConfusion this

theorem contains_append_str (l1 l2 : List String) (a : String) :
    (l1 ++ l2).contains a = (l1.contains a || l2.contains a) := by
  induction l1 with
  | nil => simp
  | cons x t ih => simp [List.contains_cons, ih, Bool.or_assoc]

theorem expectedContains_ann (m : ModelCls) (a : String) :
    expectedContains (.annGroup m) a = (hasColumn m a || (relNamesOf m).contains a) := by
  unfold expectedContains declaredNames hasColumn
  exact contains_append_str _ _ _

theorem lookupGet_eq_none (a : String)
    (h : lookupNames.contains a = false) : lookupGet a = none := by
  unfold lookupGet
  rw [List.find?_eq_none.mpr]
  · rfl
  · intro x hx
    simp only [decide_eq_true_eq]
    intro he
    rw [Bool.eq_false_iff] at h
    exact h ((contains_iff_mem _ _).mpr (he ▸ List.mem_map.mpr ⟨x, hx, rfl⟩))

theorem lookupGet_isSome_of_contains (a : String)
    (h : lookupNames.contains a = true) : ∃ op, lookupGet a = some op := by
  unfold lookupGet
  have hm := (contains_iff_mem _ _).mp h
  unfold lookupNames at hm
  rw [List.mem_map] at hm
  obtain ⟨x, hx, he⟩ := hm
  have : (lookupRegistry.find? (fun p => p.1 = a)).isSome := by
    rw [List.find?_isSome]
    exact ⟨x, hx, by simp [he]⟩
  obtain ⟨y, hy⟩ := Option.isSome_iff_exists.mp this
  exact ⟨y.2, by rw [hy]; rfl⟩

end DLR
namespace DLR

theorem builderLoop_bad (ff : String) (ext : List String)
    (hext : ext = [] ∨ ∃ x, ext = [x] ∧ lookupNames.contains x = true) :
    ∀ (attrs : List String) (m : ModelCls) (found : Option String)
      (col : Option (ModelCls × String)) (op : OpName) (exp : BExpected),
    (found = none → exp = .annGroup m ∧ col = none) →
    (∀ c, found = some c → exp = .lookGroup) →
    isBadClass (classifyLoop m found attrs) = true →
    builderFilterFreshLoop ff m col op exp (attrs ++ ext) = .error (.invalidFilteringField ff) := by
  intro attrs
  induction attrs with
  | nil =>
      intro m found col op exp hinv1 hinv2 hbad
      cases found with
      | some c => simp [classifyLoop, isBadClass] at hbad
      | none =>
          obtain ⟨hexp, hcol⟩ := hinv1 rfl
          subst hexp
          subst hcol
          rcases hext with he | ⟨x, he, hx⟩
          · subst he
            rfl
          · subst he
            have h1 : expectedContains (.annGroup m) x = false := by
              rw [expectedContains_ann, lookup_not_column m x ((contains_iff_mem _ _).mp hx),
                relNames_contains_false m x (lookup_not_rel m x ((contains_iff_mem _ _).mp hx))]
              rfl
            simp [builderFilterFreshLoop, h1]
  | cons a rest ih =>
      intro m found col op exp hinv1 hinv2 hbad
      cases hrel : getRelationship m a with
      | some rel =>
          cases found with
          | none =>
              obtain ⟨hexp, hcol⟩ := hinv1 rfl
              subst hexp
              subst hcol
              have h1 : expectedContains (.annGroup m) a = true := by
                rw [expectedContains_ann, relNames_contains_true m a rel hrel]
                simp
              have hbad2 : isBadClass (classifyLoop rel.target none rest) = true := by
                cases rest with
                | nil => rfl
                | cons b r2 =>
                    simp only [classifyLoop, hrel, List.isEmpty_cons] at hbad
                    exact hbad
              have := ih rel.target none none op (.annGroup rel.target)
                (fun _ => ⟨rfl, rfl⟩) (fun c hc => Option.noConfusion hc) hbad2
              simp only [List.cons_append, builderFilterFreshLoop, h1, Bool.not_true,
                Bool.false_eq_true, if_false, hrel]
              exact this
          | some c =>
              have hexp := hinv2 c rfl
              subst hexp
              have h1 : expectedContains .lookGroup a = false :=
                lookup_contains_not_rel m a rel hrel
              simp [builderFilterFreshLoop, h1]
      | none =>
          cases hcol : hasColumn m a with
          | true =>
              cases found with
              | none =>
                  obtain ⟨hexp, hcolnone⟩ := hinv1 rfl
                  subst hexp
                  subst hcolnone
                  have h1 : expectedContains (.annGroup m) a = true := by
                    rw [expectedContains_ann, hcol]
                    rfl
                  have hbad2 : isBadClass (classifyLoop m (some a) rest) = true := by
                    simp only [classifyLoop, hrel, hcol, if_true] at hbad
                    exact hbad
                  have := ih m (some a) (some (m, a)) op .lookGroup
                    (fun h => Option.noConfusion h) (fun c _ => rfl) hbad2
                  have hc2 : (columnsOf m).contains a = true := hcol
                  simp only [List.cons_append, builderFilterFreshLoop, h1, Bool.not_true,
                    Bool.false_eq_true, if_false, hrel, hc2, if_true]
                  exact this
              | some c =>
                  have hexp := hinv2 c rfl
                  subst hexp
                  by_cases heq : a = c
                  · subst heq
                    have hrel2 : getRelationship m a = none := hrel
                    simp [classifyLoop, hrel2, hcol, isBadClass] at hbad
                  · have h1 : expectedContains .lookGroup a = false :=
                      lookup_contains_not_col m a hcol
                    simp [builderFilterFreshLoop, h1]
          | false =>
              cases hlk : lookupNames.contains a with
              | true =>
                  have hmem : a ∈ lookupNames := (contains_iff_mem _ _).mp hlk
                  simp [classifyLoop, hrel, hcol, hmem, isBadClass] at hbad
              | false =>
                  cases found with
                  | none =>
                      obtain ⟨hexp, hcolnone⟩ := hinv1 rfl
                      subst hexp
                      subst hcolnone
                      have h1 : expectedContains (.annGroup m) a = false := by
                        rw [expectedContains_ann, hcol, relNames_contains_false m a hrel]
                        rfl
                      simp [builderFilterFreshLoop, h1]
                  | some c =>
                      have hexp := hinv2 c rfl
                      subst hexp
                      have h1 : expectedContains .lookGroup a = false := hlk
                      simp [builderFilterFreshLoop, h1]

end DLR
namespace DLR

theorem splitSepAux_ne_nil : ∀ (cs acc : List Char), splitSepAux cs acc ≠ [] := by
  intro cs acc
  induction cs, acc using splitSepAux.induct with
  | case1 acc => simp [splitSepAux]
  | case2 rest acc ih => simp [splitSepAux]
  | case3 c rest acc h ih =>
      rw [splitSepAux.eq_3 acc c rest h]
      exact ih

theorem splitSepAux_singleton : ∀ (cs acc : List Char) (x : List Char),
    splitSepAux cs acc = [x] → x = acc.reverse ++ cs := by
  intro cs acc
  induction cs, acc using splitSepAux.induct with
  | case1 acc =>
      intro x h
      simp [splitSepAux] at h
      simp [h]
  | case2 rest acc ih =>
      intro x h
      simp [splitSepAux] at h
      exact absurd h.2 (splitSepAux_ne_nil rest [])
  | case3 c rest acc h ih =>
      intro x hx
      rw [splitSepAux.eq_3 acc c rest h] at hx
      have := ih x hx
      simp [this, List.reverse_cons, List.append_assoc]

theorem pathSegs_ne_nil (s : String) : pathSegs s ≠ [] := by
  unfold pathSegs
  intro h
  rw [List.map_eq_nil_iff] at h
  exact splitSepAux_ne_nil _ _ h

theorem asString_data (s : String) : (s.data).asString = s := by
  cases s
  rfl

theorem pathSegs_singleton (name a : String) (h : pathSegs name = [a]) : a = name := by
  unfold pathSegs at h
  cases hl : splitSepAux name.toList [] with
  | nil => exact absurd hl (splitSepAux_ne_nil _ _)
  | cons x t =>
      rw [hl] at h
      simp only [List.map_cons, List.cons.injEq] at h
      obtain ⟨hx, ht⟩ := h
      rw [List.map_eq_nil_iff] at ht
      subst ht
      have h2 := splitSepAux_singleton name.toList [] x hl
      simp at h2
      rw [← hx, h2]
      exact asString_data name

end DLR
namespace DLR

theorem except_error_bind {e a b : Type} (err : e) (f : a → Except e b) :
    (Except.error err : Except e a) >>= f = .error err := rfl

theorem dropLast_append_getLastD (l : List String) (h : l ≠ []) :
    l.dropLast ++ [(l.getLast?).getD ""] = l := by
  rw [List.getLast?_eq_getLast l h]
  simp only [Option.getD_some]
  exact List.dropLast_append_getLast h

theorem builderResolve_bad (m : ModelCls) (name : String)
    (hbad : isBadClass (classifyPath m name) = true) :
    builderFilterResolveFresh m name = .error (.invalidFilteringField name) := by
  unfold builderFilterResolveFresh
  cases hpop : lookupNames.contains (((pathSegs name).getLast?).getD "") with
  | true =>
      rw [classifyPath, hpop] at hbad
      simp only [if_true] at hbad
      rw [← dropLast_append_getLastD (pathSegs name) (pathSegs_ne_nil name)]
      exact builderLoop_bad name [((pathSegs name).getLast?).getD ""]
        (Or.inr ⟨_, rfl, hpop⟩) (pathSegs name).dropLast m none none .eq (.annGroup m)
        (fun _ => ⟨rfl, rfl⟩) (fun c hc => Option.noConfusion hc) hbad
  | false =>
      rw [classifyPath, hpop] at hbad
      simp only [Bool.false_eq_true, if_false] at hbad
      have h2 := builderLoop_bad name [] (Or.inl rfl) (pathSegs name) m none none .eq
        (.annGroup m) (fun _ => ⟨rfl, rfl⟩) (fun c hc => Option.noConfusion hc) hbad
      rw [List.append_nil] at h2
      exact h2

end DLR
namespace DLR

theorem rel_some_not_column (m : ModelCls) (a : String) (rel : RelInfo)
    (h : getRelationship m a = some rel) : hasColumn m a = false := by
  unfold getRelationship at h
  cases hf : (relationshipsOf m).find? (fun p => decide (p.1 = a)) with
  | none => rw [hf] at h; simp at h
  | some pr =>
      have hmem := List.mem_of_find?_eq_some hf
      have hpred := List.find?_some hf
      simp only [decide_eq_true_eq] at hpred
      have h2 := rel_not_column m pr hmem
      rw [hpred] at h2
      exact h2

theorem qsResolve_single (m : ModelCls) (name : String)
    (hattrs : pathSegs name = [name]) :
    (classifyPath m name = .ambiguousMulti →
      ∃ er, qsFilterResolve m name = .error er) ∧
    (classifyPath m name = .noColumn →
      ∃ m2 c, qsFilterResolve m name = .error (.columnNotFound m2 c)) ∧
    (classifyPath m name = .unknownSeg →
      ∃ m2 c, qsFilterResolve m name = .error (.columnNotFound m2 c)) := by
  have hq : ∀ _ : hasColumn m name = false,
      qsFilterResolve m name = .error (.columnNotFound m name) := by
    intro hcolf
    unfold qsFilterResolve
    rw [hattrs]
    simp [hcolf]
  cases hpop : lookupNames.contains name with
  | true =>
      have hmemN : name ∈ lookupNames := (contains_iff_mem _ _).mp hpop
      have hcl : classifyPath m name = .noColumn := by
        rw [classifyPath, hattrs]
        simp [hmemN, classifyLoop]
      have hcolf : hasColumn m name = false := lookup_not_column m name hmemN
      refine ⟨?_, ?_, ?_⟩ <;> intro h2
      · rw [hcl] at h2; exact absurd h2 (by simp)
      · exact ⟨m, name, hq hcolf⟩
      · rw [hcl] at h2; exact absurd h2 (by simp)
  | false =>
      have hmemN : name ∉ lookupNames := by
        intro hc
        rw [(contains_iff_mem _ _).mpr hc] at hpop
        exact Bool.noConfusion hpop
      have hclEq : classifyPath m name = classifyLoop m none [name] := by
        rw [classifyPath, hattrs]
        simp [hmemN]
      cases hrel : getRelationship m name with
      | some rel =>
          have hcl : classifyPath m name = .noColumn := by
            rw [hclEq]
            simp [classifyLoop, hrel]
          have hcolf : hasColumn m name = false := rel_some_not_column m name rel hrel
          refine ⟨?_, ?_, ?_⟩ <;> intro h2
          · rw [hcl] at h2; exact absurd h2 (by simp)
          · exact ⟨m, name, hq hcolf⟩
          · rw [hcl] at h2; exact absurd h2 (by simp)
      | none =>
          cases hcol : hasColumn m name with
          | true =>
              have hcl : classifyPath m name = .okPath := by
                rw [hclEq]
                simp [classifyLoop, hrel, hcol]
              refine ⟨?_, ?_, ?_⟩ <;> intro h2 <;> rw [hcl] at h2 <;>
                exact absurd h2 (by simp)
          | false =>
              have hcl : classifyPath m name = .unknownSeg := by
                rw [hclEq]
                simp [classifyLoop, hrel, hcol, hmemN]
              refine ⟨?_, ?_, ?_⟩ <;> intro h2
              · rw [hcl] at h2; exact absurd h2 (by simp)
              · rw [hcl] at h2; exact absurd h2 (by simp)
              · exact ⟨m, name, hq hcol⟩

end DLR
namespace DLR

theorem qsResolve_multi (m : ModelCls) (name : String)
    (hL2 : 2 ≤ (pathSegs name).length) :
    (classifyPath m name = .ambiguousMulti →
      ∃ er, qsFilterResolve m name = .error er) ∧
    (classifyPath m name = .noColumn → lastTwoEqual (pathSegs name) = false →
      ∃ m2 c, qsFilterResolve m name = .error (.columnNotFound m2 c)) ∧
    (classifyPath m name = .unknownSeg → lastTwoEqual (pathSegs name) = false →
      ∃ m2 c, qsFilterResolve m name = .error (.columnNotFound m2 c)) := by
  have hlen : ¬((pathSegs name).length ≤ 1) := by omega
  have hdrop_ne : (pathSegs name).dropLast ≠ [] := by
    apply List.ne_nil_of_length_pos
    rw [List.length_dropLast]
    omega
  by_cases heqlp : ((pathSegs name).getLast?).getD "" =
      ((pathSegs name)[(pathSegs name).length - 2]?).getD ""
  · have hdup : lastTwoEqual (pathSegs name) = true := by
      unfold lastTwoEqual
      rw [decide_eq_true hL2, beq_iff_eq.mpr heqlp]
      rfl
    refine ⟨?_, ?_, ?_⟩
    · intro hcl
      cases hpop : lookupNames.contains (((pathSegs name).getLast?).getD "") with
      | true =>
          have hcl2 : classifyLoop m none (pathSegs name).dropLast = .ambiguousMulti := by
            rw [classifyPath, if_pos hpop] at hcl
            exact hcl
          have hloop := (qsLoop_classes (pathSegs name).dropLast m [] none
            (Or.inl hdrop_ne)).1 hcl2
          obtain ⟨op, hop⟩ := lookupGet_isSome_of_contains _ hpop
          refine ⟨.valueError, ?_⟩
          rw [qsFilterResolve]
          simp only [if_neg hlen]
          rw [if_pos heqlp,
            if_pos (show (decide (((pathSegs name).getLast?).getD "" =
              ((pathSegs name)[(pathSegs name).length - 2]?).getD "") ||
              lookupNames.contains (((pathSegs name).getLast?).getD "")) = true by
                rw [decide_eq_true heqlp]; rfl),
            hop]
          simp only [hloop, except_error_bind]
      | false =>
          refine ⟨.valueError, ?_⟩
          rw [qsFilterResolve]
          simp only [if_neg hlen]
          rw [if_pos heqlp, lookupGet_eq_none _ hpop]
    · intro _ hdup2
      rw [hdup] at hdup2
      exact Bool.noConfusion hdup2
    · intro _ hdup2
      rw [hdup] at hdup2
      exact Bool.noConfusion hdup2
  · cases hpop : lookupNames.contains (((pathSegs name).getLast?).getD "") with
    | true =>
        obtain ⟨op, hop⟩ := lookupGet_isSome_of_contains _ hpop
        have hred : ∀ (e2 : PyErr),
            qsFilterLoop m [] none (pathSegs name).dropLast = .error e2 →
            qsFilterResolve m name = .error e2 := by
          intro e2 hloop
          rw [qsFilterResolve]
          simp only [if_neg hlen]
          rw [if_neg heqlp, if_pos hpop,
            if_pos (show (decide (((pathSegs name).getLast?).getD "" =
              ((pathSegs name)[(pathSegs name).length - 2]?).getD "") ||
              lookupNames.contains (((pathSegs name).getLast?).getD "")) = true by
                rw [decide_eq_false heqlp, Bool.false_or]; exact hpop),
            hop]
          simp only [hloop, except_error_bind]
        have hcleq : ∀ x, classifyPath m name = x →
            classifyLoop m none (pathSegs name).dropLast = x := by
          intro x hx
          rw [classifyPath, if_pos hpop] at hx
          exact hx
        refine ⟨?_, ?_, ?_⟩
        · intro hcl
          exact ⟨.valueError, hred _ ((qsLoop_classes (pathSegs name).dropLast m [] none
            (Or.inl hdrop_ne)).1 (hcleq _ hcl))⟩
        · intro hcl _
          obtain ⟨m2, c, hloop⟩ := (qsLoop_classes (pathSegs name).dropLast m [] none
            (Or.inl hdrop_ne)).2.1 (hcleq _ hcl)
          exact ⟨m2, c, hred _ hloop⟩
        · intro hcl _
          obtain ⟨m2, c, hloop⟩ := (qsLoop_classes (pathSegs name).dropLast m [] none
            (Or.inl hdrop_ne)).2.2 (hcleq _ hcl)
          exact ⟨m2, c, hred _ hloop⟩
    | false =>
        have hnpop : ¬(lookupNames.contains (((pathSegs name).getLast?).getD "") = true) := by
          intro h2
          rw [hpop] at h2
          exact Bool.noConfusion h2
        have hred : ∀ (e2 : PyErr),
            qsFilterLoop m [] none (pathSegs name) = .error e2 →
            qsFilterResolve m name = .error e2 := by
          intro e2 hloop
          rw [qsFilterResolve]
          simp only [if_neg hlen]
          rw [if_neg heqlp, if_neg hnpop,
            if_neg (show ¬((decide (((pathSegs name).getLast?).getD "" =
              ((pathSegs name)[(pathSegs name).length - 2]?).getD "") ||
              lookupNames.contains (((pathSegs name).getLast?).getD "")) = true) by
                rw [decide_eq_false heqlp, Bool.false_or, hpop]
                exact fun h2 => Bool.noConfusion h2)]
          rw [show lookupGet "exact" = some OpName.eq from rfl]
          simp only [hloop, except_error_bind]
        have hcleq : ∀ x, classifyPath m name = x →
            classifyLoop m none (pathSegs name) = x := by
          intro x hx
          rw [classifyPath, if_neg hnpop] at hx
          exact hx
        refine ⟨?_, ?_, ?_⟩
        · intro hcl
          exact ⟨.valueError, hred _ ((qsLoop_classes (pathSegs name) m [] none
            (Or.inl (pathSegs_ne_nil name))).1 (hcleq _ hcl))⟩
        · intro hcl _
          obtain ⟨m2, c, hloop⟩ := (qsLoop_classes (pathSegs name) m [] none
            (Or.inl (pathSegs_ne_nil name))).2.1 (hcleq _ hcl)
          exact ⟨m2, c, hred _ hloop⟩
        · intro hcl _
          obtain ⟨m2, c, hloop⟩ := (qsLoop_classes (pathSegs name) m [] none
            (Or.inl (pathSegs_ne_nil name))).2.2 (hcleq _ hcl)
          exact ⟨m2, c, hred _ hloop⟩

end DLR

namespace DLR

/-- Lookup of a deeper relationship path (two or more segments whose first is
not "subsections") in the sample join tree finds nothing. -/
theorem initDmlJoins_find_deep (h' : String) (t : List String) (a : String)
    (hh : h' ≠ "subsections") :
    initDmlJoins.find? (·.1 = (h' :: t) ++ [a]) = none := by
  rw [List.find?_eq_none]
  intro x hx
  simp only [initDmlJoins, List.mem_cons, List.not_mem_nil, or_false] at hx
  rcases hx with rfl | rfl | rfl <;>
    simp only [decide_eq_true_eq, List.cons_append] <;>
    intro heq <;>
    rw [List.cons.injEq] at heq
  · exact hh heq.1.symm
  · exact hh heq.1.symm
  · have h2 := heq.2
    simp at h2

/-- Lookup of a single-segment path other than the sample keys in the sample
join tree finds nothing. -/
theorem initDmlJoins_find_single (a : String) (h1 : a ≠ "subsections")
    (h2 : a ≠ "status") :
    initDmlJoins.find? (·.1 = [a]) = none := by
  rw [List.find?_eq_none]
  intro x hx
  simp only [initDmlJoins, List.mem_cons, List.not_mem_nil, or_false] at hx
  rcases hx with rfl | rfl | rfl <;> simp only [decide_eq_true_eq] <;> intro heq
  · exact h1 (by injection heq with ha _; exact ha.symm)
  · injection heq with _ htl
    simp at htl
  · exact h2 (by injection heq with ha _; exact ha.symm)

/-- On the sample join tree, the filter walk coincides with the collision-free
walk as soon as it is strictly inside the relationship chain away from the
"subsections" subtree, or past the column segment. -/
theorem builderLoop_sim (ff : String) (attrs : List String) :
    ∀ (m : ModelCls) (cur : List String) (col : Option (ModelCls × String))
      (op : OpName) (exp : BExpected),
      (exp = .lookGroup ∨ exp = .doneGroup ∨
        ∃ h t, cur = h :: t ∧ h ≠ "subsections") →
      builderFilterLoop ff initDmlJoins m cur col op exp attrs =
        builderFilterFreshLoop ff m col op exp attrs := by
  induction attrs with
  | nil => intro m cur col op exp _; rfl
  | cons a rest ih =>
      intro m cur col op exp hinv
      by_cases hexp : expectedContains exp a = true
      · rcases hinv with hL | hD | ⟨h', t, rfl, hh⟩
        · subst hL
          have hlk : lookupNames.contains a = true := hexp
          have hrel : getRelationship m a = none :=
            lookup_not_rel m a ((contains_iff_mem _ _).mp hlk)
          have hcol : (columnsOf m).contains a = false :=
            lookup_not_column m a ((contains_iff_mem _ _).mp hlk)
          obtain ⟨opn, hop⟩ := lookupGet_isSome_of_contains a hlk
          simp only [builderFilterLoop, builderFilterFreshLoop, hexp, Bool.not_true,
            Bool.false_eq_true, if_false, hrel, hcol, hop]
          exact ih m cur col opn .doneGroup (Or.inr (Or.inl rfl))
        · subst hD
          exact absurd hexp (by simp [expectedContains])
        · simp only [builderFilterLoop, builderFilterFreshLoop, hexp, Bool.not_true,
            Bool.false_eq_true, if_false]
          cases hrel : getRelationship m a with
          | some rel =>
              rw [initDmlJoins_find_deep h' t a hh]
              exact ih rel.target ((h' :: t) ++ [a]) col op (.annGroup rel.target)
                (Or.inr (Or.inr ⟨h', t ++ [a], rfl, hh⟩))
          | none =>
              cases hcol : (columnsOf m).contains a with
              | true =>
                  simp only [hcol, if_true]
                  exact ih m (h' :: t) (some (m, a)) op .lookGroup (Or.inl rfl)
              | false =>
                  simp only [hcol, Bool.false_eq_true, if_false]
                  cases hop : lookupGet a with
                  | some opn =>
                      simp only [hop]
                      exact ih m (h' :: t) col opn .doneGroup (Or.inr (Or.inl rfl))
                  | none => simp only [hop]
      · have hexp2 : expectedContains exp a = false := by
          cases h : expectedContains exp a with
          | true => exact absurd h hexp
          | false => rfl
        simp only [builderFilterLoop, builderFilterFreshLoop, hexp2, Bool.not_false,
          if_true]

/-- When the first segment does not collide with a sample join key, resolution
on a freshly constructed builder coincides with the collision-free walk. -/
theorem builderResolve_sim (m : ModelCls) (name : String)
    (hnc : initCollides m name = false) :
    builderFilterResolve m initDmlJoins name = builderFilterResolveFresh m name := by
  unfold initCollides at hnc
  unfold builderFilterResolve builderFilterResolveFresh
  cases hps : pathSegs name with
  | nil => rfl
  | cons a rest =>
      rw [hps] at hnc
      by_cases hd : (declaredNames m).contains a = true
      · cases hrel : getRelationship m a with
        | none =>
            simp only [builderFilterLoop, builderFilterFreshLoop,
              show expectedContains (.annGroup m) a = true from hd, Bool.not_true,
              Bool.false_eq_true, if_false, hrel]
            cases hcol : (columnsOf m).contains a with
            | true =>
                simp only [hcol, if_true]
                exact builderLoop_sim name rest m [] (some (m, a)) .eq .lookGroup
                  (Or.inl rfl)
            | false =>
                simp only [hcol, Bool.false_eq_true, if_false]
                cases hop : lookupGet a with
                | some opn =>
                    simp only [hop]
                    exact builderLoop_sim name rest m [] none opn .doneGroup
                      (Or.inr (Or.inl rfl))
                | none => simp only [hop]
        | some rel =>
            have hbad : (a == "subsections" || a == "status") = false := by
              have hnc2 : ((declaredNames m).contains a &&
                  (getRelationship m a).isSome &&
                  (a == "subsections" || a == "status")) = false := hnc
              rw [hd, hrel] at hnc2
              simpa using hnc2
            have h1 : a ≠ "subsections" := by
              intro h
              rw [h] at hbad
              simp at hbad
            have h2 : a ≠ "status" := by
              intro h
              rw [h] at hbad
              simp at hbad
            simp only [builderFilterLoop, builderFilterFreshLoop,
              show expectedContains (.annGroup m) a = true from hd, Bool.not_true,
              Bool.false_eq_true, if_false, hrel, List.nil_append]
            rw [initDmlJoins_find_single a h1 h2]
            exact builderLoop_sim name rest rel.target ([] ++ [a]) none .eq
              (.annGroup rel.target) (Or.inr (Or.inr ⟨a, [], rfl, h1⟩))
      · have hd2 : expectedContains (.annGroup m) a = false := by
          cases h : (declaredNames m).contains a with
          | true => exact absurd h hd
          | false => exact h
        simp only [builderFilterLoop, builderFilterFreshLoop, hd2, Bool.not_false,
          if_true]

/-- When the first segment is a declared relationship colliding with a sample
join key, resolution on a freshly constructed builder raises KeyError. -/
theorem builderResolve_collides (m : ModelCls) (name : String)
    (hc : initCollides m name = true) :
    builderFilterResolve m initDmlJoins name = .error (.keyError "target") := by
  unfold initCollides at hc
  unfold builderFilterResolve
  cases hps : pathSegs name with
  | nil =>
      rw [hps] at hc
      exact Bool.noConfusion hc
  | cons a rest =>
      rw [hps] at hc
      have hc2 : ((declaredNames m).contains a && (getRelationship m a).isSome &&
          (a == "subsections" || a == "status")) = true := hc
      have hd : (declaredNames m).contains a = true :=
        (Bool.and_eq_true_iff.mp (Bool.and_eq_true_iff.mp hc2).1).1
      have hsome : (getRelationship m a).isSome = true :=
        (Bool.and_eq_true_iff.mp (Bool.and_eq_true_iff.mp hc2).1).2
      have hkey : (a == "subsections" || a == "status") = true :=
        (Bool.and_eq_true_iff.mp hc2).2
      obtain ⟨rel, hrel⟩ := Option.isSome_iff_exists.mp hsome
      simp only [builderFilterLoop,
        show expectedContains (.annGroup m) a = true from hd, Bool.not_true,
        Bool.false_eq_true, if_false, hrel, List.nil_append]
      rcases Bool.or_eq_true_iff.mp hkey with h | h
      · rw [show a = "subsections" from by simpa using h]
        rfl
      · rw [show a = "status" from by simpa using h]
        rfl

/-- C7: on a freshly constructed builder (whose `_joins` tree carries the
`__init__` sample nodes), a filter path whose first segment is a relationship
named like a sample join key raises KeyError('target') from `_join` in
QueryBuilder.filter; for paths free of that collision, an ambiguous
multi-field path makes both resolvers fail with an error, while a path that
terminates inside a relationship (no column reached) or contains a segment
that is neither a relationship, a column nor a lookup makes QuerySet.filter
fail with ColumnNotFoundError but QueryBuilder.filter fail with
InvalidFilteringFieldError (the side condition excludes paths whose last two
segments coincide, where QuerySet pops the duplicate as a trailing lookup). -/
theorem claim_C7_filter_path_errors (m : ModelCls) (name : String) :
    (initCollides m name = true →
      builderFilterResolve m initDmlJoins name = .error (.keyError "target")) ∧
    (initCollides m name = false →
      (classifyPath m name = .ambiguousMulti →
        (∃ er, qsFilterResolve m name = .error er) ∧
        builderFilterResolve m initDmlJoins name =
          .error (.invalidFilteringField name)) ∧
      (classifyPath m name = .noColumn → lastTwoEqual (pathSegs name) = false →
        (∃ m2 c, qsFilterResolve m name = .error (.columnNotFound m2 c)) ∧
        builderFilterResolve m initDmlJoins name =
          .error (.invalidFilteringField name)) ∧
      (classifyPath m name = .unknownSeg → lastTwoEqual (pathSegs name) = false →
        (∃ m2 c, qsFilterResolve m name = .error (.columnNotFound m2 c)) ∧
        builderFilterResolve m initDmlJoins name =
          .error (.invalidFilteringField name))) := by
  refine ⟨fun hc => builderResolve_collides m name hc, fun hnc => ?_⟩
  have hsim := builderResolve_sim m name hnc
  have hqs :
      (classifyPath m name = .ambiguousMulti →
        ∃ er, qsFilterResolve m name = .error er) ∧
      (classifyPath m name = .noColumn → lastTwoEqual (pathSegs name) = false →
        ∃ m2 c, qsFilterResolve m name = .error (.columnNotFound m2 c)) ∧
      (classifyPath m name = .unknownSeg → lastTwoEqual (pathSegs name) = false →
        ∃ m2 c, qsFilterResolve m name = .error (.columnNotFound m2 c)) := by
    by_cases hL : 2 ≤ (pathSegs name).length
    · exact qsResolve_multi m name hL
    · have h0 : 0 < (pathSegs name).length :=
        List.length_pos.mpr (pathSegs_ne_nil name)
      have h1 : (pathSegs name).length = 1 := by omega
      obtain ⟨a, ha⟩ := List.length_eq_one.mp h1
      have ha2 := pathSegs_singleton name a ha
      rw [ha2] at ha
      obtain ⟨g1, g2, g3⟩ := qsResolve_single m name ha
      exact ⟨g1, fun hc _ => g2 hc, fun hc _ => g3 hc⟩
  have hb : ∀ x, classifyPath m name = x → isBadClass x = true →
      builderFilterResolve m initDmlJoins name =
        .error (.invalidFilteringField name) := by
    intro x hx hbad
    rw [hsim]
    exact builderResolve_bad m name (by rw [hx]; exact hbad)
  exact ⟨fun hc => ⟨hqs.1 hc, hb _ hc rfl⟩,
         fun hc hlt => ⟨hqs.2.1 hc hlt, hb _ hc rfl⟩,
         fun hc hlt => ⟨hqs.2.2 hc hlt, hb _ hc rfl⟩⟩

/-- C7 counterexample to the claimed error kinds: the path "documents" on User
terminates inside a relationship (the no-column case), yet QueryBuilder.filter
raises InvalidFilteringFieldError, not the claimed ColumnNotFoundError; the
unknown segment "foo" after the "type" relationship of User makes
QuerySet.filter raise ColumnNotFoundError, not a builder-style invalid-field
error; and "subsections" on Section — also a no-column path — raises
KeyError('target') from `_join` against the `__init__` sample join nodes. -/
theorem claim_C7_counterexample :
    classifyPath .User "documents" = .noColumn ∧
    builderFilterResolve .User initDmlJoins "documents" =
      .error (.invalidFilteringField "documents") ∧
    classifyPath .User "type__foo" = .unknownSeg ∧
    qsFilterResolve .User "type__foo" =
      .error (.columnNotFound .UserType "foo") ∧
    builderFilterResolve .User initDmlJoins "type__foo" =
      .error (.invalidFilteringField "type__foo") ∧
    classifyPath .Section "subsections" = .noColumn ∧
    builderFilterResolve .Section initDmlJoins "subsections" =
      .error (.keyError "target") := by
  decide

/-- C7 witness: the error classes realised on concrete paths — the sample-key
collision "subsections" on Section, the ambiguous pair first_name__last_name
on User, the relationship-terminated path "documents" on User, and the unknown
segment type__foo on User. -/
theorem claim_C7_witness :
    builderFilterResolve .Section initDmlJoins "subsections" =
      .error (.keyError "target") ∧
    ((∃ er, qsFilterResolve .User "first_name__last_name" = .error er) ∧
      builderFilterResolve .User initDmlJoins "first_name__last_name" =
        .error (.invalidFilteringField "first_name__last_name")) ∧
    ((∃ m2 c, qsFilterResolve .User "documents" =
        .error (.columnNotFound m2 c)) ∧
      builderFilterResolve .User initDmlJoins "documents" =
        .error (.invalidFilteringField "documents")) ∧
    ((∃ m2 c, qsFilterResolve .User "type__foo" =
        .error (.columnNotFound m2 c)) ∧
      builderFilterResolve .User initDmlJoins "type__foo" =
        .error (.invalidFilteringField "type__foo")) :=
  ⟨(claim_C7_filter_path_errors .Section "subsections").1 (by decide),
   ((claim_C7_filter_path_errors .User "first_name__last_name").2 (by decide)).1
     (by decide),
   ((claim_C7_filter_path_errors .User "documents").2 (by decide)).2.1
     (by decide) (by decide),
   ((claim_C7_filter_path_errors .User "type__foo").2 (by decide)).2.2
     (by decide) (by decide)⟩

/-- Every reachable join tree retains a model_cls-shaped node (the `__init__`
sample nodes are never removed or reshaped). -/
theorem reachable_has_modelShaped (js : List (List String × JoinNode))
    (h : ReachableJoins js) : ∃ p d, (p, JoinNode.modelShaped d) ∈ js := by
  induction h with
  | init =>
      exact ⟨["subsections"],
        { model_cls := .Subsection
          nodeWhere := [("name", .eq, .v (.str "значение"))]
          nodeOrder := [("status_id", .asc), ("name", .desc)]
          is_outer := false }, List.mem_cons_self _ _⟩
  | addJoin js1 js2 p d _ ih =>
      obtain ⟨q, e, hm⟩ := ih
      refine ⟨q, e, ?_⟩
      rcases List.mem_append.mp hm with h1 | h2
      · exact List.mem_append_left _ h1
      · exact List.mem_append_right _ (List.mem_cons_of_mem _ h2)
  | setNode js1 js2 p d d2 _ ih =>
      obtain ⟨q, e, hm⟩ := ih
      refine ⟨q, e, ?_⟩
      rcases List.mem_append.mp hm with h1 | h2
      · exact List.mem_append_left _ h1
      · rcases List.mem_cons.mp h2 with heq | h3
        · exact absurd (congrArg Prod.snd heq) (fun hx => JoinNode.noConfusion hx)
        · exact List.mem_append_right _ (List.mem_cons_of_mem _ h3)

/-- `_apply_joins` raises KeyError('target') whenever the tree holds a
model_cls-shaped node. -/
theorem compileOldJoins_keyError (r : ModelCls) (js : List (List String × JoinNode))
    (p : List String) (d : JoinNodeData)
    (hm : (p, JoinNode.modelShaped d) ∈ js) :
    compileOldJoins r js = .error (.keyError "target") := by
  induction js with
  | nil => cases hm
  | cons e rest ih =>
      obtain ⟨q, n⟩ := e
      cases n with
      | modelShaped d2 => rfl
      | joinShaped d2 =>
          have hrest : (p, JoinNode.modelShaped d) ∈ rest := by
            rcases List.mem_cons.mp hm with heq | h2
            · exact absurd (congrArg Prod.snd heq) (fun hx => JoinNode.noConfusion hx)
            · exact h2
          simp only [compileOldJoins, ih hrest, except_error_bind]

/-- C6: build_count_stmt never compiles the count statement — on every builder
state reachable through the public API, `_apply_joins` reads `value["target"]`
on one of the model_cls-shaped sample join nodes `__init__` installs (and no
mutation ever removes or reshapes), so the call raises KeyError('target'). -/
theorem claim_C6_count_keyerror (st : QueryBuilderState)
    (hre : ReachableJoins st.joins) :
    buildCountStmt st = .error (.keyError "target") := by
  obtain ⟨p, d, hm⟩ := reachable_has_modelShaped st.joins hre
  unfold buildCountStmt
  rw [compileOldJoins_keyError st.model_cls st.joins p d hm]
  rfl

/-- C6 witness: the count KeyError at the freshly constructed Section builder. -/
theorem claim_C6_witness :
    buildCountStmt (queryBuilderInitDml .Section) = .error (.keyError "target") :=
  claim_C6_count_keyerror (queryBuilderInitDml .Section) ReachableJoins.init

/-- C5: build_delete_stmt and build_update_stmt never compile the pk-scoped
DELETE/UPDATE — on every builder state reachable through the public API, their
shared candidate primary-key subquery calls `_apply_joins`, which raises
KeyError('target') on the model_cls-shaped sample join nodes `__init__`
installs and nothing ever removes. -/
theorem claim_C5_update_delete_keyerror (st : QueryBuilderState)
    (hre : ReachableJoins st.joins) :
    buildDeleteStmt st = .error (.keyError "target") ∧
    ∀ vals, buildUpdateStmt st vals = .error (.keyError "target") := by
  obtain ⟨p, d, hm⟩ := reachable_has_modelShaped st.joins hre
  have hsub : buildPkSubquery st = .error (.keyError "target") := by
    unfold buildPkSubquery
    rw [compileOldJoins_keyError st.model_cls st.joins p d hm]
    rfl
  constructor
  · unfold buildDeleteStmt
    rw [hsub]
    rfl
  · intro vals
    unfold buildUpdateStmt
    rw [hsub]
    rfl

/-- C5 witness: the DELETE/UPDATE KeyError at the freshly constructed Section
builder. -/
theorem claim_C5_witness :
    buildDeleteStmt (queryBuilderInitDml .Section) = .error (.keyError "target") ∧
    buildUpdateStmt (queryBuilderInitDml .Section) [("name", .str "y")] =
      .error (.keyError "target") :=
  ⟨(claim_C5_update_delete_keyerror (queryBuilderInitDml .Section)
      ReachableJoins.init).1,
   (claim_C5_update_delete_keyerror (queryBuilderInitDml .Section)
      ReachableJoins.init).2 [("name", .str "y")]⟩

end DLR
